import Mathlib

/-!
Shallow embedding of the recommendation core of the
ecommerce-microservice-architecture repository
(services/recommendation-service/app), together with theorems checking the
natural-language specification against it.

Conventions of the embedding:
* Redis is modelled by an explicit `Store` record.  Each Redis key family of
  the source becomes one field (`interactions:{user}`, `product:popularity`,
  `co_occurrence:{pid}`, `purchased:{user}`, `user_profile:{user}`,
  `product:{pid}`, `category:{cid}:products`, `category:{cid}:popular`, and
  the three result caches).
* A Redis sorted set is an association list `List (String × ℚ)` holding the
  member/score map; `zrevrangeTo` produces the descending view that
  `ZREVRANGE key 0 stop WITHSCORES` returns (score descending, ties by
  member descending, indices 0..stop inclusive).  Scores are modelled by ℚ.
* Python dicts are association lists in insertion order: assignment
  overwrites in place, fresh keys are appended (`dset`, `dmodify`, `daddQ`).
* `sorted(..., key=score, reverse=True)` is the stable descending insertion
  sort `pySortByScoreDesc` / `pySortBySndDesc`.
* TTL refreshes (`expire`, the `setex` TTLs) are modelled as no-ops: wall
  clock time is not part of the model.  The HTTP layer validates
  `limit ≥ 1` (Query(ge=1) in app/api/recommendations.py), so theorems about
  output content may carry that bound.
-/

namespace RecSvc

/-- InteractionType enum from app/models/interaction.py. -/
inductive InteractionType
  | view
  | add_to_cart
  | purchase
  | review
  | wishlist
deriving DecidableEq, Repr

/-- String value of the enum (InteractionType is a str Enum). -/
def InteractionType.value : InteractionType → String
  | .view => "view"
  | .add_to_cart => "add_to_cart"
  | .purchase => "purchase"
  | .review => "review"
  | .wishlist => "wishlist"

/-- The interaction weight table built in RecommendationService.__init__
(recommendation_service.py lines 20-26). -/
def interaction_weights : InteractionType → ℚ
  | .view => 1
  | .add_to_cart => 3
  | .wishlist => 2
  | .purchase => 5
  | .review => 4

/-- UserInteraction (app/models/interaction.py).  The timestamp is carried as
an opaque string; no algorithm of the service reads it back. -/
structure UserInteraction where
  user_id : String
  product_id : String
  interaction_type : InteractionType
  timestamp : String := ""
deriving DecidableEq, Repr

/-- The JSON object pushed onto `interactions:{user}` by track_interaction
(recommendation_service.py lines 33-38). -/
structure InteractionData where
  product_id : String
  type : String
  score : ℚ
  timestamp : String := ""
deriving DecidableEq, Repr

/-- RecommendedProduct (app/schemas/recommendation.py).  The optional display
fields name/image_url/price are never set by the service code and are
omitted. -/
structure RecommendedProduct where
  product_id : String
  score : ℚ
  reason : String := ""
deriving DecidableEq, Repr

/-- The hash stored under `product:{pid}` by the Kafka consumer
(kafka_consumer.py lines 89-94). -/
structure ProductHash where
  category_id : String
  brand_id : String
  price : String
  name : String
deriving DecidableEq, Repr

/-- The hash stored under `user_profile:{user}` (recommendation_service.py
lines 338-352). -/
structure ProfileHash where
  interaction_count : Int
  last_active : String
deriving DecidableEq, Repr

/-- UserProfile (app/models/interaction.py). -/
structure UserProfile where
  user_id : String
  preferred_categories : List String := []
  preferred_brands : List String := []
  price_range_min : ℚ := 0
  price_range_max : ℚ := 10000
  interaction_count : Int := 0
  last_active : Option String := none
deriving DecidableEq, Repr

/-! ### Association lists and Redis primitives -/

/-- Lookup in an association list (Python `d[k]` / `k in d`, Redis member
lookup). -/
def alookup {α : Type} : List (String × α) → String → Option α
  | [], _ => none
  | (k, v) :: rest, m => if k = m then some v else alookup rest m

/-- Python dict assignment `d[k] = v`: overwrite in place if present,
append otherwise (dicts preserve insertion order). -/
def dset {α : Type} : List (String × α) → String → α → List (String × α)
  | [], k, v => [(k, v)]
  | (k0, v0) :: rest, k, v =>
    if k0 = k then (k0, v) :: rest else (k0, v0) :: dset rest k v

/-- In-place mutation of the object stored at a key (used for
`recommendations[pid].score += ...`). -/
def dmodify {α : Type} : List (String × α) → String → (α → α) → List (String × α)
  | [], _, _ => []
  | (k0, v0) :: rest, k, f =>
    if k0 = k then (k0, f v0) :: rest else (k0, v0) :: dmodify rest k f

/-- Python `defaultdict(float)` accumulation `d[k] += v`. -/
def daddQ : List (String × ℚ) → String → ℚ → List (String × ℚ)
  | [], k, v => [(k, v)]
  | (k0, v0) :: rest, k, v =>
    if k0 = k then (k0, v0 + v) :: rest else (k0, v0) :: daddQ rest k v

/-- A Redis sorted set: member/score association list. -/
abbrev ZSet := List (String × ℚ)

/-- Redis ZINCRBY: add to the score of a member, inserting it (from 0) if
absent. -/
def zincrby (z : ZSet) (amt : ℚ) (m : String) : ZSet :=
  match z with
  | [] => [(m, amt)]
  | (k, v) :: rest => if k = m then (k, v + amt) :: rest else (k, v) :: zincrby rest amt m

/-- Ordering used by ZREVRANGE: score descending, ties by member
descending. -/
def zBefore (a b : String × ℚ) : Bool :=
  decide (b.2 < a.2) || (decide (a.2 = b.2) && decide (b.1 < a.1))

def zrevInsert (a : String × ℚ) : ZSet → ZSet
  | [] => [a]
  | b :: l => if zBefore a b then a :: b :: l else b :: zrevInsert a l

/-- The descending view of a sorted set. -/
def zrevSorted (z : ZSet) : ZSet := z.foldr zrevInsert []

/-- Redis `ZREVRANGE key 0 stop WITHSCORES`: members ordered by descending
score, indices 0..stop inclusive (stop + 1 members). -/
def zrevrangeTo (z : ZSet) (stop : Nat) : ZSet := (zrevSorted z).take (stop + 1)

/-- Redis SADD on a set modelled as a duplicate-free list in insertion
order. -/
def sadd (l : List String) (m : String) : List String :=
  if m ∈ l then l else l ++ [m]

/-! ### The store -/

/-- The Redis state visible to the recommendation service. -/
structure Store where
  interactions : String → List InteractionData
  popularity : ZSet
  coOccurrence : String → ZSet
  purchased : String → List String
  profile : String → Option ProfileHash
  productMeta : String → Option ProductHash
  categoryProducts : String → List String
  categoryPopular : String → ZSet
  personalizedCache : String → Option (List RecommendedProduct)
  similarCache : String → Option (List RecommendedProduct)
  trendingCache : Option (List RecommendedProduct)

/-- Pointwise update of a keyed field. -/
def upd {α : Type} (f : String → α) (k : String) (v : α) : String → α :=
  fun x => if x = k then v else f x

def Store.empty : Store where
  interactions := fun _ => []
  popularity := []
  coOccurrence := fun _ => []
  purchased := fun _ => []
  profile := fun _ => none
  productMeta := fun _ => none
  categoryProducts := fun _ => []
  categoryPopular := fun _ => []
  personalizedCache := fun _ => none
  similarCache := fun _ => none
  trendingCache := none

/-! ### Stable descending sorts (Python `sorted(..., reverse=True)`) -/

def pyInsert {α : Type} (key : α → ℚ) (x : α) : List α → List α
  | [] => [x]
  | y :: l => if key y ≤ key x then x :: y :: l else y :: pyInsert key x l

/-- Stable descending insertion sort on a rational key, the behaviour of
`sorted(..., key, reverse=True)`: an element is placed before the first
already-sorted element whose key does not exceed its own, so elements with
equal keys keep their original relative order. -/
def pySortDesc {α : Type} (key : α → ℚ) (l : List α) : List α :=
  l.foldr (pyInsert key) []

/-- Sort of RecommendedProduct lists by score descending. -/
def pySortByScoreDesc (l : List RecommendedProduct) : List RecommendedProduct :=
  pySortDesc (fun r => r.score) l

/-- Sort of (pid, score) pairs by score descending (used on `.items()` of
score dicts). -/
def pySortBySndDesc (l : List (String × ℚ)) : List (String × ℚ) :=
  pySortDesc (fun e => e.2) l

/-! ### SignalStore reads (recommendation_service.py lines 311-321) -/

/-- _get_user_interactions: LRANGE interactions:{user} 0 99. -/
def getUserInteractions (s : Store) (user_id : String) : List InteractionData :=
  (s.interactions user_id).take 100

/-- _get_purchased_products: SMEMBERS purchased:{user}. -/
def getPurchasedProducts (s : Store) (user_id : String) : List String :=
  s.purchased user_id

/-- _update_co_occurrence (lines 323-336): bump the co-occurrence edge
between the tracked product and each distinct-from-it product among the
20 most recent log entries, in both directions; the EXPIRE refreshes are
time and are not modelled. -/
def updateCoOccurrence (s : Store) (user_id product_id : String) : Store :=
  let recent_products :=
    (((getUserInteractions s user_id).take 20).map (fun i => i.product_id)).filter
      (fun p => p ≠ product_id)
  recent_products.foldl (fun s other_product =>
    let z1 := zincrby (s.coOccurrence product_id) 1 other_product
    let s := { s with coOccurrence := upd s.coOccurrence product_id z1 }
    let z2 := zincrby (s.coOccurrence other_product) 1 product_id
    { s with coOccurrence := upd s.coOccurrence other_product z2 }) s

/-- _update_user_profile (lines 338-352).  `last_active` receives the wall
clock, which the model carries as the interaction timestamp string; the
service never reads the value back for any computation. -/
def updateUserProfile (s : Store) (i : UserInteraction) : Store :=
  let p := (s.profile i.user_id).getD ⟨0, ""⟩
  let p := { p with interaction_count := p.interaction_count + 1, last_active := i.timestamp }
  let s := { s with profile := upd s.profile i.user_id (some p) }
  if i.interaction_type = InteractionType.purchase then
    { s with purchased := upd s.purchased i.user_id (sadd (s.purchased i.user_id) i.product_id) }
  else s

/-! ### track_interaction with explicit failure injection (lines 28-59)

Every awaited Redis step of track_interaction may fail; the Python body
wraps all of them in one try/except which logs and returns False.  A
`FailSpec` says which step raises; the error value carries the store as
mutated by the steps already executed, matching the non-transactional
partial effects of the source. -/

structure FailSpec where
  failLpush : Bool := false
  failLtrim : Bool := false
  failExpireInteractions : Bool := false
  failZincrbyPopularity : Bool := false
  failUpdateCoOccurrence : Bool := false
  failUpdateUserProfile : Bool := false
deriving DecidableEq, Repr

def noFail : FailSpec := {}

def runStep (fail : Bool) (f : Store → Store) (s : Store) : Except Store Store :=
  if fail then Except.error s else Except.ok (f s)

/-- The body of the try-block of track_interaction. -/
def trackBody (fs : FailSpec) (s : Store) (i : UserInteraction) : Except Store Store := do
  let s ← runStep fs.failLpush (fun s =>
    let entry : InteractionData :=
      ⟨i.product_id, i.interaction_type.value, interaction_weights i.interaction_type, i.timestamp⟩
    { s with interactions := upd s.interactions i.user_id (entry :: s.interactions i.user_id) }) s
  let s ← runStep fs.failLtrim (fun s =>
    { s with interactions := upd s.interactions i.user_id ((s.interactions i.user_id).take 1000) }) s
  let s ← runStep fs.failExpireInteractions (fun s => s) s
  let s ← runStep fs.failZincrbyPopularity (fun s =>
    { s with popularity := zincrby s.popularity (interaction_weights i.interaction_type) i.product_id }) s
  let s ← runStep fs.failUpdateCoOccurrence (fun s => updateCoOccurrence s i.user_id i.product_id) s
  let s ← runStep fs.failUpdateUserProfile (fun s => updateUserProfile s i) s
  pure s

/-- track_interaction: True on success, False on any internal failure; the
store reflects the steps that ran before the failure. -/
def trackInteraction (fs : FailSpec) (s : Store) (i : UserInteraction) : Bool × Store :=
  match trackBody fs s i with
  | Except.ok s2 => (true, s2)
  | Except.error s2 => (false, s2)

/-- The failure-free store effect of one Record call. -/
def trackStore (s : Store) (i : UserInteraction) : Store :=
  (trackInteraction noFail s i).2

/-- Result of POST /api/v1/recommendations/track
(app/api/recommendations.py lines 108-123). -/
inductive ApiTrackResult
  | created (message : String)
  | httpError (status : Nat) (detail : String)
deriving DecidableEq, Repr

/-- The /track endpoint: a False from track_interaction becomes
HTTPException(500). -/
def apiTrackInteraction (fs : FailSpec) (s : Store) (i : UserInteraction) :
    ApiTrackResult × Store :=
  let r := trackInteraction fs s i
  if r.1 then (ApiTrackResult.created "Interaction tracked successfully", r.2)
  else (ApiTrackResult.httpError 500 "Failed to track interaction", r.2)

/-! ### get_similar_products (lines 144-202) -/

/-- The co-occurrence fetch of get_similar_products:
ZREVRANGE co_occurrence:{pid} 0 (limit-1). -/
def simCoFetch (s : Store) (product_id : String) (limit : Nat) : ZSet :=
  zrevrangeTo (s.coOccurrence product_id) (limit - 1)

/-- Step 1 of get_similar_products: co-purchase entries. -/
def simCoStage (co : ZSet) : List (String × RecommendedProduct) :=
  co.foldl (fun d e => dset d e.1 ⟨e.1, e.2, "Frequently bought together"⟩) []

/-- Step 2 of get_similar_products: category siblings from the metadata
cache, skipped when the product hash is absent or has an empty
category_id. -/
def simCatStage (s : Store) (product_id : String) (limit : Nat)
    (d : List (String × RecommendedProduct)) : List (String × RecommendedProduct) :=
  match s.productMeta product_id with
  | none => d
  | some product_data =>
    let category_id := product_data.category_id
    if category_id = "" then d
    else
      ((s.categoryProducts category_id).take limit).foldl (fun d pid =>
        if pid ≠ product_id ∧ alookup d pid = none then
          dset d pid ⟨pid, 1/2, "Same category"⟩
        else d) d

/-- The cache-miss computation of get_similar_products. -/
def computeSimilar (s : Store) (product_id : String) (limit : Nat) :
    List RecommendedProduct :=
  let d := simCoStage (simCoFetch s product_id limit)
  let d := simCatStage s product_id limit d
  (pySortByScoreDesc (d.map Prod.snd)).take limit

/-- get_similar_products: cached payload truncated to limit on hit, else
compute, cache and return. -/
def getSimilarProducts (s : Store) (product_id : String) (limit : Nat) :
    List RecommendedProduct × Store :=
  match s.similarCache product_id with
  | some cached => (cached.take limit, s)
  | none =>
    let sorted_recs := computeSimilar s product_id limit
    (sorted_recs,
     { s with similarCache := upd s.similarCache product_id (some sorted_recs) })

/-! ### get_trending_products (lines 204-236) -/

def computeTrending (s : Store) (limit : Nat) : List RecommendedProduct :=
  (zrevrangeTo s.popularity (limit - 1)).map (fun e => ⟨e.1, e.2, "Trending now"⟩)

def getTrendingProducts (s : Store) (limit : Nat) : List RecommendedProduct × Store :=
  match s.trendingCache with
  | some cached => (cached.take limit, s)
  | none =>
    let recommendations := computeTrending s limit
    (recommendations, { s with trendingCache := some recommendations })

/-! ### _collaborative_filtering (lines 368-410) -/

def min_interactions_for_cf : Nat := 5

/-- The dict comprehension {i.product_id: i.score for i in interactions}:
insertion order is first occurrence, the kept value is the last
occurrence. -/
def pyDictOfPairs (l : List (String × ℚ)) : List (String × ℚ) :=
  l.foldl (fun d e => dset d e.1 e.2) []

/-- user_products of _collaborative_filtering (line 380), built over the
first 100 log entries. -/
def cfUserProducts (s : Store) (user_id : String) : List (String × ℚ) :=
  pyDictOfPairs ((getUserInteractions s user_id).map (fun i => (i.product_id, i.score)))

/-- The per-source co-occurrence fetch of _collaborative_filtering:
ZREVRANGE co_occurrence:{pid} 0 20 (21 members). -/
def cfFetch (s : Store) (product_id : String) : ZSet :=
  zrevrangeTo (s.coOccurrence product_id) 20

/-- The defaultdict accumulation loop of _collaborative_filtering (lines
383-391): for the first 10 user products, accumulate
strength * weight over fetched co-occurrents not interacted with. -/
def cfScoresDict (s : Store) (user_id : String) : List (String × ℚ) :=
  ((cfUserProducts s user_id).take 10).foldl (fun d src =>
    (cfFetch s src.1).foldl (fun d e =>
      if alookup (cfUserProducts s user_id) e.1 = none then daddQ d e.1 (e.2 * src.2)
      else d) d) []

def collaborativeFiltering (s : Store) (user_id : String) (limit : Nat) :
    List RecommendedProduct :=
  if (getUserInteractions s user_id).length < min_interactions_for_cf then []
  else
    ((pySortBySndDesc (cfScoresDict s user_id)).take limit).map
      (fun e => ⟨e.1, e.2, "Customers like you also bought"⟩)

/-! ### _get_category_recommendations (lines 412-434) and _get_user_profile
(lines 354-366) -/

def getCategoryRecommendations (s : Store) (categories : List String) (limit : Nat) :
    List RecommendedProduct :=
  (categories.foldl (fun acc category_id =>
    acc ++ (zrevrangeTo (s.categoryPopular category_id) (limit - 1)).map
      (fun e => ⟨e.1, e.2, "Popular in category"⟩)) []).take limit

/-- _get_user_profile builds the pydantic UserProfile from the hash fields
interaction_count and last_active only; every other field keeps its
default (in particular preferred_categories = []). -/
def getUserProfile (s : Store) (user_id : String) : Option UserProfile :=
  match s.profile user_id with
  | none => none
  | some profile_data =>
    some { user_id := user_id
           interaction_count := profile_data.interaction_count
           last_active :=
             if profile_data.last_active = "" then none else some profile_data.last_active }

/-! ### get_personalized_recommendations (lines 61-142) -/

/-- Signal 1 merge step (lines 95-101): skip excluded products; a repeat
adds score * 0.5; a new product is inserted with its reason overwritten. -/
def contentStep (excluded : List String) (d : List (String × RecommendedProduct))
    (rec : RecommendedProduct) : List (String × RecommendedProduct) :=
  if rec.product_id ∈ excluded then d
  else match alookup d rec.product_id with
    | some _ => dmodify d rec.product_id (fun r => { r with score := r.score + rec.score * (1/2) })
    | none => dset d rec.product_id { rec with reason := "Similar to items you viewed" }

/-- Signal 2 merge step (lines 105-110): a repeat adds the full score; a new
product is inserted as-is (keeping the collaborative reason). -/
def cfStep (excluded : List String) (d : List (String × RecommendedProduct))
    (rec : RecommendedProduct) : List (String × RecommendedProduct) :=
  if rec.product_id ∈ excluded then d
  else match alookup d rec.product_id with
    | some _ => dmodify d rec.product_id (fun r => { r with score := r.score + rec.score })
    | none => dset d rec.product_id rec

/-- Signal 3 merge step (lines 119-125): a repeat adds score * 0.3; a new
product is inserted with the category reason. -/
def catStep (excluded : List String) (d : List (String × RecommendedProduct))
    (rec : RecommendedProduct) : List (String × RecommendedProduct) :=
  if rec.product_id ∈ excluded then d
  else match alookup d rec.product_id with
    | some _ => dmodify d rec.product_id (fun r => { r with score := r.score + rec.score * (3/10) })
    | none => dset d rec.product_id { rec with reason := "Popular in your favorite categories" }

/-- The content-affinity loop (lines 92-101): for each recent product fetch
get_similar_products(pid, 5) — which writes through the similar cache, so
the store is threaded — and fold its results into the dict. -/
def contentLoop (excluded : List String) (recent_products : List String)
    (d : List (String × RecommendedProduct)) (s : Store) :
    List (String × RecommendedProduct) × Store :=
  recent_products.foldl (fun acc pid =>
    let r := getSimilarProducts acc.2 pid 5
    (r.1.foldl (contentStep excluded) acc.1, r.2)) (d, s)

/-- The three-signal merge of get_personalized_recommendations on given
signal inputs (lines 89-125): content similar-lists in order, then the
collaborative list, then the category list. -/
def mergeSignals (excluded : List String) (contentLists : List (List RecommendedProduct))
    (cfList catList : List RecommendedProduct) : List (String × RecommendedProduct) :=
  let d := contentLists.foldl (fun d l => l.foldl (contentStep excluded) d) []
  let d := cfList.foldl (cfStep excluded) d
  catList.foldl (catStep excluded) d

/-- The cache-miss, non-cold computation of
get_personalized_recommendations (lines 83-138): exclusion set, the three
signal merges in order, sort, truncate, write-through. -/
def personalizeCompute (s : Store) (user_id : String) (limit : Nat)
    (exclude_purchased : Bool) : List RecommendedProduct × Store :=
  let interactions := getUserInteractions s user_id
  let excluded := if exclude_purchased then getPurchasedProducts s user_id else []
  let recent_products := (interactions.take 10).map (fun i => i.product_id)
  let cs := contentLoop excluded recent_products [] s
  let cf_recommendations := collaborativeFiltering cs.2 user_id 10
  let d := cf_recommendations.foldl (cfStep excluded) cs.1
  let d :=
    match getUserProfile cs.2 user_id with
    | some user_profile =>
      if user_profile.preferred_categories ≠ [] then
        (getCategoryRecommendations cs.2 (user_profile.preferred_categories.take 3) 5).foldl
          (catStep excluded) d
      else d
    | none => d
  let sorted_recs := (pySortByScoreDesc (d.map Prod.snd)).take limit
  (sorted_recs,
   { cs.2 with personalizedCache := upd cs.2.personalizedCache user_id (some sorted_recs) })

def getPersonalized (s : Store) (user_id : String) (limit : Nat)
    (exclude_purchased : Bool) : List RecommendedProduct × Store :=
  match s.personalizedCache user_id with
  | some cached => (cached.take limit, s)
  | none =>
    if getUserInteractions s user_id = [] then getTrendingProducts s limit
    else personalizeCompute s user_id limit exclude_purchased

/-! ### get_frequently_bought_together (lines 271-309) -/

/-- The per-input fetch of get_frequently_bought_together:
ZREVRANGE co_occurrence:{pid} 0 (limit*2), i.e. 2*limit + 1 members. -/
def fbtFetch (s : Store) (limit : Nat) (product_id : String) : ZSet :=
  zrevrangeTo (s.coOccurrence product_id) (limit * 2)

/-- The accumulation loop of get_frequently_bought_together (lines
278-290): the exclude set is the input list itself. -/
def fbtScoresDict (s : Store) (product_ids : List String) (limit : Nat) :
    List (String × ℚ) :=
  product_ids.foldl (fun d product_id =>
    (fbtFetch s limit product_id).foldl (fun d e =>
      if e.1 ∈ product_ids then d else daddQ d e.1 e.2) d) []

def getFrequentlyBoughtTogether (s : Store) (product_ids : List String) (limit : Nat) :
    List RecommendedProduct :=
  ((pySortBySndDesc (fbtScoresDict s product_ids limit)).take limit).map
    (fun e => ⟨e.1, e.2, "Frequently bought together"⟩)

/-! ### Kafka product events (kafka_consumer.py lines 79-104) and the event
replay used for reachable stores -/

/-- _handle_product_event for ProductCreated/ProductUpdated: upsert the
product hash and add the product to `category:{cid}:products`.  Empty
strings model missing/falsy fields. -/
def handleProductUpsert (s : Store) (id categoryId brandId price name : String) : Store :=
  if id = "" then s
  else
    let s := { s with productMeta := upd s.productMeta id (some ⟨categoryId, brandId, price, name⟩) }
    if categoryId = "" then s
    else
      let members := sadd (s.categoryProducts categoryId) id
      { s with categoryProducts := upd s.categoryProducts categoryId members }

/-- One externally observable operation of the service.  Order events are
sequences of purchase track events (kafka_consumer.py lines 58-77); the
read endpoints appear because they write through the result caches. -/
inductive Event
  | track (i : UserInteraction)
  | productUpsert (id categoryId brandId price name : String)
  | personalize (user_id : String) (limit : Nat) (exclude_purchased : Bool)
  | similar (product_id : String) (limit : Nat)
  | trending (limit : Nat)

def applyEvent (s : Store) : Event → Store
  | Event.track i => trackStore s i
  | Event.productUpsert id categoryId brandId price name =>
      handleProductUpsert s id categoryId brandId price name
  | Event.personalize u l ex => (getPersonalized s u l ex).2
  | Event.similar p l => (getSimilarProducts s p l).2
  | Event.trending l => (getTrendingProducts s l).2

/-- The store reached from the empty store by a sequence of events. -/
def replay (events : List Event) : Store :=
  events.foldl applyEvent Store.empty

/-! ### Specification-level views used by the theorems below -/

/-- Popularity score of a product (a missing member counts as 0, the ZINCRBY
baseline). -/
def popScore (s : Store) (p : String) : ℚ := (alookup s.popularity p).getD 0

/-- Symmetry of the stored co-occurrence graph: B carries the same strength
in the adjacency of A as A does in the adjacency of B (absence on both
sides included). -/
def coSymmetric (s : Store) : Prop :=
  ∀ a b : String, alookup (s.coOccurrence a) b = alookup (s.coOccurrence b) a

/-- The output list is ordered by non-increasing score. -/
def sortedByScoreDesc (l : List RecommendedProduct) : Prop :=
  l.Chain' (fun a b => b.score ≤ a.score)

/-- Scores of the occurrences of product p in a signal list, in order. -/
def occScores (p : String) (l : List RecommendedProduct) : List ℚ :=
  (l.filter (fun r => r.product_id = p)).map (fun r => r.score)

/-- The reason the blend records for p: the content reason if the content
signal introduces p, else the reason carried by the first collaborative
entry for p, else the category reason. -/
def firstIntroReason (p : String) (contentList cfList : List RecommendedProduct) : String :=
  if contentList.filter (fun r => r.product_id = p) ≠ [] then "Similar to items you viewed"
  else
    match cfList.filter (fun r => r.product_id = p) with
    | r :: _ => r.reason
    | [] => "Popular in your favorite categories"

/-- The additive blend of the three signals for p: the first occurrence in
the earliest signal containing p enters at its raw score; every later
content occurrence adds score * 0.5, every later collaborative occurrence
adds its full score, every later category occurrence adds score * 0.3. -/
def blendedScore (p : String) (contentList cfList catList : List RecommendedProduct) : ℚ :=
  match occScores p contentList, occScores p cfList, occScores p catList with
  | c0 :: crest, cfs, cats =>
    c0 + (crest.map (fun q => q * (1/2))).sum + cfs.sum + (cats.map (fun q => q * (3/10))).sum
  | [], f0 :: frest, cats =>
    f0 + frest.sum + (cats.map (fun q => q * (3/10))).sum
  | [], [], k0 :: krest => k0 + (krest.map (fun q => q * (3/10))).sum
  | [], [], [] => 0

/-- Contribution of one source product (with its weight) to the accumulated
collaborative score of p: the sum of strength * weight over the fetched
co-occurrents of the source equal to p. -/
def cfContribution (s : Store) (p : String) (src : String × ℚ) : ℚ :=
  (((cfFetch s src.1).filter (fun e => e.1 = p)).map (fun e => e.2 * src.2)).sum

/-- The accumulated collaborative score of p over the (up to) 10 sources. -/
def cfSpecScore (s : Store) (user_id p : String) : ℚ :=
  (((cfUserProducts s user_id).take 10).map (cfContribution s p)).sum

/-- Contribution of one input product to the accumulated
frequently-bought-together score of p. -/
def fbtContribution (s : Store) (limit : Nat) (p product_id : String) : ℚ :=
  (((fbtFetch s limit product_id).filter (fun e => e.1 = p)).map (fun e => e.2)).sum

/-- The accumulated frequently-bought-together score of p over the input
products. -/
def fbtSpecScore (s : Store) (product_ids : List String) (limit : Nat) (p : String) : ℚ :=
  (product_ids.map (fbtContribution s limit p)).sum

/-- A recommendation whose reason is not the category-affinity reason. -/
def goodReason (r : RecommendedProduct) : Prop :=
  r.reason ≠ "Popular in your favorite categories"

/-- Every cached payload consists of recommendations with good reasons. -/
def cachesGood (s : Store) : Prop :=
  (∀ u l, s.personalizedCache u = some l → ∀ r ∈ l, goodReason r) ∧
  (∀ p l, s.similarCache p = some l → ∀ r ∈ l, goodReason r) ∧
  (∀ l, s.trendingCache = some l → ∀ r ∈ l, goodReason r)

/-- A personalized cache entry exists only for users with recorded
history. -/
def cacheNeedsHistory (s : Store) : Prop :=
  ∀ u l, s.personalizedCache u = some l → s.interactions u ≠ []

/-- Two stores agreeing on every signal structure (everything except the
result caches). -/
def sameSignals (s t : Store) : Prop :=
  s.interactions = t.interactions ∧ s.popularity = t.popularity ∧
  s.coOccurrence = t.coOccurrence ∧ s.purchased = t.purchased ∧
  s.profile = t.profile ∧ s.productMeta = t.productMeta ∧
  s.categoryProducts = t.categoryProducts ∧ s.categoryPopular = t.categoryPopular

/-- A small concrete interaction history for instantiating the universally
quantified theorems: two purchases of P1 around a view of P2, all by user
u1. -/
def sampleTracks : List UserInteraction :=
  [⟨"u1", "P1", InteractionType.purchase, ""⟩,
   ⟨"u1", "P2", InteractionType.view, ""⟩,
   ⟨"u1", "P1", InteractionType.purchase, ""⟩]

/-- A store in which product A has 21 co-occurrents (strengths 22 down
to 2) and user U has five view interactions with A. -/
def coA21 : ZSet :=
  [("B01", 22), ("B02", 21), ("B03", 20), ("B04", 19), ("B05", 18), ("B06", 17),
   ("B07", 16), ("B08", 15), ("B09", 14), ("B10", 13), ("B11", 12), ("B12", 11),
   ("B13", 10), ("B14", 9), ("B15", 8), ("B16", 7), ("B17", 6), ("B18", 5),
   ("B19", 4), ("B20", 3), ("B21", 2)]

def cfCounterStore : Store :=
  { Store.empty with
    interactions := upd Store.empty.interactions "U" (List.replicate 5 ⟨"A", "view", 1, ""⟩),
    coOccurrence := upd Store.empty.coOccurrence "A" coA21 }

/-- A store in which user U purchased A (three times) and viewed B (twice),
and both A and B co-occur with N at equal strength 4. -/
def cfWitnessStore : Store :=
  { Store.empty with
    interactions := upd Store.empty.interactions "U"
      [⟨"A", "purchase", 5, ""⟩, ⟨"B", "view", 1, ""⟩, ⟨"A", "purchase", 5, ""⟩,
       ⟨"B", "view", 1, ""⟩, ⟨"A", "purchase", 5, ""⟩],
    coOccurrence := fun x =>
      if x = "A" then [("N", 4)] else if x = "B" then [("N", 4)] else [] }

/-- A store in which A and B each have three co-occurrents; Z is ranked
third for both inputs. -/
def fbtCounterStore : Store :=
  { Store.empty with
    coOccurrence := fun x =>
      if x = "A" then [("X", 10), ("Y", 9), ("Z", 8)]
      else if x = "B" then [("X2", 10), ("Y2", 9), ("Z", 8)] else [] }

/-- The concrete scenario of spec section 8: three users each purchase P1
and then P2, producing a co-occurrence edge of strength 3. -/
def fbtScenarioEvents : List Event :=
  [Event.track ⟨"u1", "P1", InteractionType.purchase, ""⟩,
   Event.track ⟨"u1", "P2", InteractionType.purchase, ""⟩,
   Event.track ⟨"u2", "P1", InteractionType.purchase, ""⟩,
   Event.track ⟨"u2", "P2", InteractionType.purchase, ""⟩,
   Event.track ⟨"u3", "P1", InteractionType.purchase, ""⟩,
   Event.track ⟨"u3", "P2", InteractionType.purchase, ""⟩]

/-- A store in which product P has one co-occurrent C1 (strength 4) and
category cat contains P, C1 and S1. -/
def simWitnessStore : Store :=
  { Store.empty with
    coOccurrence := fun x => if x = "P" then [("C1", 4)] else [],
    productMeta := fun x => if x = "P" then some ⟨"cat", "", "", ""⟩ else none,
    categoryProducts := fun c => if c = "cat" then ["P", "C1", "S1"] else [] }

/-- Events for the C1 counterexample: V views A then B (creating the A-B
co-occurrence edge); U views B; Personalize(U, exclude_purchased=false) is
served and cached; then U purchases A.  The cached entry still contains
A. -/
def c1Events : List Event :=
  [Event.track ⟨"V", "A", InteractionType.view, ""⟩,
   Event.track ⟨"V", "B", InteractionType.view, ""⟩,
   Event.track ⟨"U", "B", InteractionType.view, ""⟩,
   Event.personalize "U" 10 false,
   Event.track ⟨"U", "A", InteractionType.purchase, ""⟩]

/-- Events reaching a store where U has history [B, C], has purchased C,
holds no personalized cache entry, and B co-occurs with A (strength 4) and
C (strength 1). -/
def c1WitnessEvents : List Event :=
  [Event.track ⟨"V", "A", InteractionType.view, ""⟩,
   Event.track ⟨"V", "B", InteractionType.view, ""⟩,
   Event.track ⟨"V", "A", InteractionType.view, ""⟩,
   Event.track ⟨"V", "B", InteractionType.view, ""⟩,
   Event.track ⟨"U", "C", InteractionType.purchase, ""⟩,
   Event.track ⟨"U", "B", InteractionType.view, ""⟩]

/-! ## Lemmas: association lists -/

theorem alookup_dset {α : Type} (d : List (String × α)) (k : String) (v : α) (p : String) :
    alookup (dset d k v) p = if k = p then some v else alookup d p := by
  induction d with
  | nil => simp [dset, alookup]
  | cons e rest ih =>
    obtain ⟨k0, v0⟩ := e
    by_cases h0 : k0 = k
    · subst h0
      by_cases h : k0 = p <;> simp [dset, alookup, h]
    · simp only [dset, if_neg h0, alookup]
      by_cases h1 : k0 = p
      · have h2 : ¬ k = p := fun h => h0 (h1.trans h.symm)
        simp [h1, h2]
      · simp [h1, ih]

theorem alookup_dmodify {α : Type} (d : List (String × α)) (k : String) (f : α → α)
    (p : String) :
    alookup (dmodify d k f) p = if k = p then Option.map f (alookup d k) else alookup d p := by
  induction d with
  | nil => simp [dmodify, alookup]
  | cons e rest ih =>
    obtain ⟨k0, v0⟩ := e
    by_cases h0 : k0 = k
    · subst h0
      by_cases h : k0 = p <;> simp [dmodify, alookup, h]
    · simp only [dmodify, if_neg h0, alookup]
      by_cases h1 : k0 = p
      · have h2 : ¬ k = p := fun h => h0 (h1.trans h.symm)
        have h3 : ¬ k0 = k := h0
        simp [h1, h2, if_neg h3]
      · simp [h1, ih, if_neg h0]

theorem alookup_daddQ (d : List (String × ℚ)) (k : String) (v : ℚ) (p : String) :
    alookup (daddQ d k v) p =
      if k = p then some ((alookup d k).getD 0 + v) else alookup d p := by
  induction d with
  | nil => simp [daddQ, alookup]
  | cons e rest ih =>
    obtain ⟨k0, v0⟩ := e
    by_cases h0 : k0 = k
    · subst h0
      by_cases h : k0 = p <;> simp [daddQ, alookup, h]
    · simp only [daddQ, if_neg h0, alookup]
      by_cases h1 : k0 = p
      · have h2 : ¬ k = p := fun h => h0 (h1.trans h.symm)
        have h3 : ¬ k0 = k := h0
        simp [h1, h2, if_neg h3]
      · simp [h1, ih, if_neg h0]

theorem alookup_zincrby (z : ZSet) (w : ℚ) (m : String) (p : String) :
    alookup (zincrby z w m) p =
      if m = p then some ((alookup z m).getD 0 + w) else alookup z p := by
  induction z with
  | nil => simp [zincrby, alookup]
  | cons e rest ih =>
    obtain ⟨k0, v0⟩ := e
    by_cases h0 : k0 = m
    · subst h0
      by_cases h : k0 = p <;> simp [zincrby, alookup, h]
    · simp only [zincrby, if_neg h0, alookup]
      by_cases h1 : k0 = p
      · have h2 : ¬ m = p := fun h => h0 (h1.trans h.symm)
        have h3 : ¬ k0 = m := h0
        simp [h1, h2, if_neg h3]
      · simp [h1, ih, if_neg h0]

theorem mem_of_alookup_eq_some {α : Type} {d : List (String × α)} {k : String} {v : α}
    (h : alookup d k = some v) : (k, v) ∈ d := by
  induction d with
  | nil => simp [alookup] at h
  | cons e rest ih =>
    obtain ⟨k0, v0⟩ := e
    by_cases h0 : k0 = k
    · subst h0
      simp [alookup] at h
      simp [h]
    · simp only [alookup, if_neg h0] at h
      exact List.mem_cons_of_mem _ (ih h)

theorem alookup_eq_some_of_mem {α : Type} {d : List (String × α)}
    (hnd : (d.map Prod.fst).Nodup) {k : String} {v : α} (h : (k, v) ∈ d) :
    alookup d k = some v := by
  induction d with
  | nil => simp at h
  | cons e rest ih =>
    obtain ⟨k0, v0⟩ := e
    simp only [List.map_cons, List.nodup_cons] at hnd
    rcases List.mem_cons.mp h with h1 | h1
    · injection h1 with hk hv
      subst hk
      subst hv
      simp [alookup]
    · have hk0 : k0 ≠ k := by
        intro hk
        subst hk
        exact hnd.1 (List.mem_map.mpr ⟨(k0, v), h1, rfl⟩)
      simp [alookup, hk0, ih hnd.2 h1]

theorem alookup_eq_none_iff {α : Type} (d : List (String × α)) (k : String) :
    alookup d k = none ↔ k ∉ d.map Prod.fst := by
  induction d with
  | nil => simp [alookup]
  | cons e rest ih =>
    obtain ⟨k0, v0⟩ := e
    by_cases h0 : k0 = k
    · subst h0
      simp [alookup]
    · simp [alookup, if_neg h0, ih, Ne.symm h0]

theorem forall_mem_dset {α : Type} {P : String × α → Prop} {d : List (String × α)}
    {k : String} {v : α} (hd : ∀ e ∈ d, P e) (hv : P (k, v)) :
    ∀ e ∈ dset d k v, P e := by
  induction d with
  | nil => simpa [dset] using hv
  | cons e0 rest ih =>
    obtain ⟨k0, v0⟩ := e0
    by_cases h0 : k0 = k
    · subst h0
      intro e he
      simp only [dset, if_pos rfl] at he
      rcases List.mem_cons.mp he with rfl | he
      · exact hv
      · exact hd _ (List.mem_cons_of_mem _ he)
    · intro e he
      simp only [dset, if_neg h0] at he
      rcases List.mem_cons.mp he with rfl | he
      · exact hd _ (List.mem_cons_self _ _)
      · exact ih (fun e2 he2 => hd _ (List.mem_cons_of_mem _ he2)) e he

theorem forall_mem_dmodify {α : Type} {P : String × α → Prop} {d : List (String × α)}
    {k : String} {f : α → α} (hd : ∀ e ∈ d, P e)
    (hf : ∀ k0 v0, P (k0, v0) → P (k0, f v0)) :
    ∀ e ∈ dmodify d k f, P e := by
  induction d with
  | nil => simp [dmodify]
  | cons e0 rest ih =>
    obtain ⟨k0, v0⟩ := e0
    by_cases h0 : k0 = k
    · subst h0
      intro e he
      simp only [dmodify, if_pos rfl] at he
      rcases List.mem_cons.mp he with rfl | he
      · exact hf _ _ (hd _ (List.mem_cons_self _ _))
      · exact hd _ (List.mem_cons_of_mem _ he)
    · intro e he
      simp only [dmodify, if_neg h0] at he
      rcases List.mem_cons.mp he with rfl | he
      · exact hd _ (List.mem_cons_self _ _)
      · exact ih (fun e2 he2 => hd _ (List.mem_cons_of_mem _ he2)) e he

theorem forall_mem_daddQ {P : String × ℚ → Prop} {d : List (String × ℚ)}
    {k : String} {v : ℚ} (hd : ∀ e ∈ d, P e) (hv : P (k, v))
    (hf : ∀ v0 w, P (k, v0) → P (k, v0 + w)) :
    ∀ e ∈ daddQ d k v, P e := by
  induction d with
  | nil => simpa [daddQ] using hv
  | cons e0 rest ih =>
    obtain ⟨k0, v0⟩ := e0
    by_cases h0 : k0 = k
    · subst h0
      intro e he
      simp only [daddQ, if_pos rfl] at he
      rcases List.mem_cons.mp he with rfl | he
      · exact hf _ _ (hd _ (List.mem_cons_self _ _))
      · exact hd _ (List.mem_cons_of_mem _ he)
    · intro e he
      simp only [daddQ, if_neg h0] at he
      rcases List.mem_cons.mp he with rfl | he
      · exact hd _ (List.mem_cons_self _ _)
      · exact ih (fun e2 he2 => hd _ (List.mem_cons_of_mem _ he2)) e he

theorem dset_eq_append {α : Type} {d : List (String × α)} {k : String}
    (h : alookup d k = none) (v : α) : dset d k v = d ++ [(k, v)] := by
  induction d with
  | nil => simp [dset]
  | cons e0 rest ih =>
    obtain ⟨k0, v0⟩ := e0
    by_cases h0 : k0 = k
    · subst h0
      simp [alookup] at h
    · simp only [alookup, if_neg h0] at h
      simp [dset, if_neg h0, ih h]

theorem alookup_append_of_eq_none {α : Type} {d1 : List (String × α)}
    (d2 : List (String × α)) {k : String} (h : alookup d1 k = none) :
    alookup (d1 ++ d2) k = alookup d2 k := by
  induction d1 with
  | nil => simp
  | cons e0 rest ih =>
    obtain ⟨k0, v0⟩ := e0
    by_cases h0 : k0 = k
    · subst h0
      simp [alookup] at h
    · simp only [alookup, if_neg h0] at h
      simp [alookup, if_neg h0, ih h]

theorem alookup_append_of_eq_some {α : Type} {d1 : List (String × α)}
    (d2 : List (String × α)) {k : String} {v : α} (h : alookup d1 k = some v) :
    alookup (d1 ++ d2) k = some v := by
  induction d1 with
  | nil => simp [alookup] at h
  | cons e0 rest ih =>
    obtain ⟨k0, v0⟩ := e0
    by_cases h0 : k0 = k
    · subst h0
      simp only [alookup, if_pos rfl] at h ⊢
      exact h
    · simp only [alookup, if_neg h0] at h ⊢
      exact ih h

/-! ## Lemmas: the stable descending sort -/

theorem mem_pyInsert {α : Type} (key : α → ℚ) (x y : α) (l : List α) :
    y ∈ pyInsert key x l ↔ y = x ∨ y ∈ l := by
  induction l with
  | nil => simp [pyInsert]
  | cons z t ih =>
    by_cases hz : key z ≤ key x
    · simp [pyInsert, if_pos hz]
    · simp only [pyInsert, if_neg hz, List.mem_cons, ih]
      tauto

theorem mem_pySortDesc {α : Type} (key : α → ℚ) (y : α) (l : List α) :
    y ∈ pySortDesc key l ↔ y ∈ l := by
  induction l with
  | nil => simp [pySortDesc]
  | cons z t ih =>
    simp only [pySortDesc, List.foldr_cons] at ih ⊢
    rw [mem_pyInsert, ih, List.mem_cons]

theorem head_pyInsert {α : Type} (key : α → ℚ) (x : α) (l : List α) :
    (pyInsert key x l).head? = some x ∨ (pyInsert key x l).head? = l.head? := by
  cases l with
  | nil => simp [pyInsert]
  | cons z t => by_cases hz : key z ≤ key x <;> simp [pyInsert, hz]

theorem chain_pyInsert {α : Type} (key : α → ℚ) (x : α) (l : List α)
    (h : l.Chain' (fun a b => key b ≤ key a)) :
    (pyInsert key x l).Chain' (fun a b => key b ≤ key a) := by
  induction l with
  | nil => simp [pyInsert]
  | cons y t ih =>
    by_cases hy : key y ≤ key x
    · simp only [pyInsert, if_pos hy]
      exact List.chain'_cons'.mpr ⟨fun z hz => by simp at hz; subst hz; exact hy, h⟩
    · simp only [pyInsert, if_neg hy]
      have ht : t.Chain' (fun a b => key b ≤ key a) := (List.chain'_cons'.mp h).2
      refine List.chain'_cons'.mpr ⟨?_, ih ht⟩
      intro z hz
      rcases head_pyInsert key x t with hh | hh
      · rw [hh] at hz
        simp at hz
        subst hz
        exact le_of_lt (lt_of_not_le hy)
      · rw [hh] at hz
        exact (List.chain'_cons'.mp h).1 z hz

theorem chain_pySortDesc {α : Type} (key : α → ℚ) (l : List α) :
    (pySortDesc key l).Chain' (fun a b => key b ≤ key a) := by
  induction l with
  | nil => simp [pySortDesc]
  | cons z t ih =>
    simp only [pySortDesc, List.foldr_cons] at ih ⊢
    exact chain_pyInsert key z _ ih

theorem length_pyInsert {α : Type} (key : α → ℚ) (x : α) (l : List α) :
    (pyInsert key x l).length = l.length + 1 := by
  induction l with
  | nil => simp [pyInsert]
  | cons z t ih =>
    by_cases hz : key z ≤ key x <;> simp [pyInsert, hz, ih]

/-! ## Lemmas: the sorted-set view -/

theorem perm_zrevInsert (a : String × ℚ) (l : ZSet) : (zrevInsert a l).Perm (a :: l) := by
  induction l with
  | nil => simp [zrevInsert]
  | cons b t ih =>
    by_cases hb : zBefore a b = true
    · simp [zrevInsert, hb]
    · simp only [zrevInsert, if_neg hb]
      exact (ih.cons b).trans (List.Perm.swap a b t)

theorem perm_zrevSorted (z : ZSet) : (zrevSorted z).Perm z := by
  induction z with
  | nil => simp [zrevSorted]
  | cons a t ih =>
    simp only [zrevSorted, List.foldr_cons] at ih ⊢
    exact (perm_zrevInsert a _).trans (ih.cons a)

theorem mem_zrevSorted (e : String × ℚ) (z : ZSet) : e ∈ zrevSorted z ↔ e ∈ z :=
  (perm_zrevSorted z).mem_iff

theorem mem_of_mem_zrevrangeTo {e : String × ℚ} {z : ZSet} {stop : Nat}
    (h : e ∈ zrevrangeTo z stop) : e ∈ z :=
  (mem_zrevSorted e z).mp ((List.take_sublist _ _).subset h)

theorem nodup_keys_zrevrangeTo {z : ZSet} (h : (z.map Prod.fst).Nodup) (stop : Nat) :
    ((zrevrangeTo z stop).map Prod.fst).Nodup := by
  have h1 : ((zrevSorted z).map Prod.fst).Nodup :=
    (((perm_zrevSorted z).map Prod.fst).nodup_iff).mpr h
  exact ((List.take_sublist _ _).map Prod.fst).nodup h1

theorem length_zrevrangeTo (z : ZSet) (stop : Nat) :
    (zrevrangeTo z stop).length ≤ stop + 1 := by
  simp [zrevrangeTo]

/-! ## Lemmas: fold preservation and store shapes -/

theorem foldl_pres_mem {σ α : Type} (step : σ → α → σ) (P : σ → Prop) :
    ∀ (l : List α), (∀ s x, x ∈ l → P s → P (step s x)) → ∀ s, P s → P (l.foldl step s)
  | [], _, _, hs => hs
  | x :: t, h, s, hs =>
    foldl_pres_mem step P t (fun s2 y hy => h s2 y (List.mem_cons_of_mem _ hy)) _
      (h s x (List.mem_cons_self _ _) hs)

theorem upd_self {α : Type} (f : String → α) (k : String) (v : α) : upd f k v k = v := by
  simp [upd]

theorem upd_other {α : Type} (f : String → α) (k : String) (v : α) {x : String}
    (h : x ≠ k) : upd f k v x = f x := by
  simp [upd, h]

theorem foldl_coStep_shape (p : String) :
    ∀ (l : List String) (s : Store),
      l.foldl (fun s other_product =>
        let z1 := zincrby (s.coOccurrence p) 1 other_product
        let s := { s with coOccurrence := upd s.coOccurrence p z1 }
        let z2 := zincrby (s.coOccurrence other_product) 1 p
        { s with coOccurrence := upd s.coOccurrence other_product z2 }) s =
      { s with coOccurrence :=
        (l.foldl (fun s other_product =>
          let z1 := zincrby (s.coOccurrence p) 1 other_product
          let s := { s with coOccurrence := upd s.coOccurrence p z1 }
          let z2 := zincrby (s.coOccurrence other_product) 1 p
          { s with coOccurrence := upd s.coOccurrence other_product z2 }) s).coOccurrence } := by
  intro l
  induction l with
  | nil => intro s; rfl
  | cons o t ih =>
    intro s
    exact ih _

/-- _update_co_occurrence only rewrites the co-occurrence field. -/
theorem updateCoOccurrence_eq (s : Store) (u p : String) :
    updateCoOccurrence s u p =
      { s with coOccurrence := (updateCoOccurrence s u p).coOccurrence } := by
  unfold updateCoOccurrence
  exact foldl_coStep_shape p _ s

theorem updateUserProfile_proj (s : Store) (i : UserInteraction) :
    (updateUserProfile s i).interactions = s.interactions ∧
    (updateUserProfile s i).popularity = s.popularity ∧
    (updateUserProfile s i).coOccurrence = s.coOccurrence ∧
    (updateUserProfile s i).productMeta = s.productMeta ∧
    (updateUserProfile s i).categoryProducts = s.categoryProducts ∧
    (updateUserProfile s i).categoryPopular = s.categoryPopular ∧
    (updateUserProfile s i).personalizedCache = s.personalizedCache ∧
    (updateUserProfile s i).similarCache = s.similarCache ∧
    (updateUserProfile s i).trendingCache = s.trendingCache := by
  unfold updateUserProfile
  by_cases h : i.interaction_type = InteractionType.purchase <;> simp [h]

/-- The failure-free effect of track_interaction as a plain composition. -/
theorem trackStore_eq (s : Store) (i : UserInteraction) :
    trackStore s i =
      (let entry : InteractionData :=
        ⟨i.product_id, i.interaction_type.value,
          interaction_weights i.interaction_type, i.timestamp⟩
      let log1 := upd s.interactions i.user_id (entry :: s.interactions i.user_id)
      let s1 := { s with interactions := log1 }
      let log2 := upd s1.interactions i.user_id ((s1.interactions i.user_id).take 1000)
      let s2 := { s1 with interactions := log2 }
      let s4 := { s2 with popularity := zincrby s2.popularity (interaction_weights i.interaction_type) i.product_id }
      updateUserProfile (updateCoOccurrence s4 i.user_id i.product_id) i) := rfl

theorem trackStore_popularity (s : Store) (i : UserInteraction) :
    (trackStore s i).popularity =
      zincrby s.popularity (interaction_weights i.interaction_type) i.product_id := by
  rw [trackStore_eq]
  rw [(updateUserProfile_proj _ _).2.1]
  rw [updateCoOccurrence_eq]

/-- One bidirectional edge increment (with the tracked product distinct from
the other product) preserves symmetry of the adjacency maps. -/
theorem coSym_pair (co : String → ZSet) (p o : String) (hop : o ≠ p)
    (h : ∀ a b, alookup (co a) b = alookup (co b) a) (a b : String) :
    alookup ((upd (upd co p (zincrby (co p) 1 o)) o
      (zincrby (upd co p (zincrby (co p) 1 o) o) 1 p)) a) b =
    alookup ((upd (upd co p (zincrby (co p) 1 o)) o
      (zincrby (upd co p (zincrby (co p) 1 o) o) 1 p)) b) a := by
  have hre : upd co p (zincrby (co p) 1 o) o = co o := upd_other _ _ _ hop
  rw [hre]
  have ho : upd (upd co p (zincrby (co p) 1 o)) o (zincrby (co o) 1 p) o =
      zincrby (co o) 1 p := upd_self _ _ _
  have hp : upd (upd co p (zincrby (co p) 1 o)) o (zincrby (co o) 1 p) p =
      zincrby (co p) 1 o := by
    rw [upd_other _ _ _ (Ne.symm hop)]
    exact upd_self _ _ _
  have hx : ∀ x, x ≠ o → x ≠ p →
      upd (upd co p (zincrby (co p) 1 o)) o (zincrby (co o) 1 p) x = co x := by
    intro x h1 h2
    rw [upd_other _ _ _ h1]
    exact upd_other _ _ _ h2
  rcases eq_or_ne a o with rfl | hao
  · rcases eq_or_ne b a with rfl | hbo
    · rfl
    · rcases eq_or_ne b p with rfl | hbp
      · rw [ho, hp, alookup_zincrby, alookup_zincrby]
        simp [h a b]
      · rw [ho, hx b hbo hbp, alookup_zincrby]
        have hpb : ¬ p = b := fun hh => hbp hh.symm
        simp [hpb, h a b]
  · rcases eq_or_ne a p with rfl | hap
    · rcases eq_or_ne b o with rfl | hbo
      · rw [hp, ho, alookup_zincrby, alookup_zincrby]
        simp [h a b]
      · rcases eq_or_ne b a with rfl | hbp
        · rfl
        · rw [hp, hx b hbo hbp, alookup_zincrby]
          have hob : ¬ o = b := fun hh => hbo hh.symm
          simp [hob, h a b]
    · rcases eq_or_ne b o with rfl | hbo
      · rw [hx a hao hap, ho, alookup_zincrby]
        have hpa : ¬ p = a := fun hh => hap hh.symm
        simp [hpa, h a b]
      · rcases eq_or_ne b p with rfl | hbp
        · rw [hx a hao hap, hp, alookup_zincrby]
          have hoa : ¬ o = a := fun hh => hao hh.symm
          simp [hoa, h a b]
        · rw [hx a hao hap, hx b hbo hbp]
          exact h a b

theorem updateCoOccurrence_coSym (s : Store) (u p : String) (h : coSymmetric s) :
    coSymmetric (updateCoOccurrence s u p) := by
  unfold updateCoOccurrence
  refine foldl_pres_mem _ coSymmetric _ ?_ s h
  intro t o ho ht
  have hop : o ≠ p := by
    simp only [List.mem_filter] at ho
    simpa using ho.2
  intro a b
  exact coSym_pair t.coOccurrence p o hop ht a b

/-- Record preserves symmetry of the co-occurrence graph. -/
theorem trackStore_coSymmetric (s : Store) (i : UserInteraction)
    (h : coSymmetric s) : coSymmetric (trackStore s i) := by
  rw [trackStore_eq]
  intro a b
  rw [(updateUserProfile_proj _ _).2.2.1]
  refine updateCoOccurrence_coSym _ i.user_id i.product_id ?_ a b
  exact fun x y => h x y

theorem trackStore_caches (s : Store) (i : UserInteraction) :
    (trackStore s i).personalizedCache = s.personalizedCache ∧
    (trackStore s i).similarCache = s.similarCache ∧
    (trackStore s i).trendingCache = s.trendingCache ∧
    (trackStore s i).productMeta = s.productMeta ∧
    (trackStore s i).categoryProducts = s.categoryProducts ∧
    (trackStore s i).categoryPopular = s.categoryPopular := by
  rw [trackStore_eq]
  refine ⟨?_, ?_, ?_, ?_, ?_, ?_⟩
  · rw [(updateUserProfile_proj _ _).2.2.2.2.2.2.1, updateCoOccurrence_eq]
  · rw [(updateUserProfile_proj _ _).2.2.2.2.2.2.2.1, updateCoOccurrence_eq]
  · rw [(updateUserProfile_proj _ _).2.2.2.2.2.2.2.2, updateCoOccurrence_eq]
  · rw [(updateUserProfile_proj _ _).2.2.2.1, updateCoOccurrence_eq]
  · rw [(updateUserProfile_proj _ _).2.2.2.2.1, updateCoOccurrence_eq]
  · rw [(updateUserProfile_proj _ _).2.2.2.2.2.1, updateCoOccurrence_eq]

theorem trackStore_interactions_self (s : Store) (i : UserInteraction) :
    (trackStore s i).interactions i.user_id =
      ((⟨i.product_id, i.interaction_type.value,
        interaction_weights i.interaction_type, i.timestamp⟩ ::
          s.interactions i.user_id).take 1000) := by
  rw [trackStore_eq]
  rw [(updateUserProfile_proj _ _).1]
  rw [updateCoOccurrence_eq]
  simp [upd]

theorem trackStore_interactions_other (s : Store) (i : UserInteraction) {v : String}
    (h : v ≠ i.user_id) : (trackStore s i).interactions v = s.interactions v := by
  rw [trackStore_eq]
  rw [(updateUserProfile_proj _ _).1]
  rw [updateCoOccurrence_eq]
  simp [upd, h]

/-! ## Lemmas: popularity -/

theorem interaction_weights_pos (t : InteractionType) : 0 < interaction_weights t := by
  cases t <;> norm_num [interaction_weights]

theorem popScore_trackStore_self (s : Store) (i : UserInteraction) :
    popScore (trackStore s i) i.product_id =
      popScore s i.product_id + interaction_weights i.interaction_type := by
  unfold popScore
  rw [trackStore_popularity, alookup_zincrby]
  simp

theorem popScore_trackStore_other (s : Store) (i : UserInteraction) {q : String}
    (h : i.product_id ≠ q) : popScore (trackStore s i) q = popScore s q := by
  unfold popScore
  rw [trackStore_popularity, alookup_zincrby]
  simp [h]

theorem popScore_trackStore_mono (s : Store) (i : UserInteraction) (q : String) :
    popScore s q ≤ popScore (trackStore s i) q := by
  by_cases h : i.product_id = q
  · subst h
    rw [popScore_trackStore_self]
    have := interaction_weights_pos i.interaction_type
    linarith
  · rw [popScore_trackStore_other s i h]

theorem popScore_foldl_tracks (P : String) :
    ∀ (tracks : List UserInteraction) (s : Store),
      (∀ i ∈ tracks, i.product_id = P → i.interaction_type = InteractionType.purchase) →
      popScore (tracks.foldl trackStore s) P =
        popScore s P + (tracks.countP (fun i => i.product_id == P) : ℚ) * 5 := by
  intro tracks
  induction tracks with
  | nil => intro s _; simp
  | cons i t ih =>
    intro s hp
    rw [List.foldl_cons]
    rw [ih (trackStore s i) (fun j hj => hp j (List.mem_cons_of_mem _ hj))]
    by_cases h : i.product_id = P
    · have hty := hp i (List.mem_cons_self _ _) h
      have h5 : interaction_weights i.interaction_type = 5 := by
        rw [hty]
        norm_num [interaction_weights]
      have hcount : (i :: t).countP (fun j => j.product_id == P) =
          t.countP (fun j => j.product_id == P) + 1 := by
        rw [List.countP_cons]
        simp [h]
      rw [hcount]
      have hpop : popScore (trackStore s i) P = popScore s P + 5 := by
        rw [← h, popScore_trackStore_self, h5]
      rw [hpop]
      push_cast
      ring
    · have hcount : (i :: t).countP (fun j => j.product_id == P) =
          t.countP (fun j => j.product_id == P) := by
        rw [List.countP_cons]
        simp [h]
      rw [hcount, popScore_trackStore_other s i h]

theorem popScore_foldl_mono (q : String) :
    ∀ (tracks : List UserInteraction) (s : Store),
      popScore s q ≤ popScore (tracks.foldl trackStore s) q := by
  intro tracks
  induction tracks with
  | nil => intro s; exact le_refl _
  | cons i t ih =>
    intro s
    rw [List.foldl_cons]
    exact le_trans (popScore_trackStore_mono s i q) (ih (trackStore s i))

theorem foldl_trackStore_coSymmetric :
    ∀ (tracks : List UserInteraction) (s : Store),
      coSymmetric s → coSymmetric (tracks.foldl trackStore s) := by
  intro tracks
  induction tracks with
  | nil => intro s h; exact h
  | cons i t ih =>
    intro s h
    rw [List.foldl_cons]
    exact ih (trackStore s i) (trackStore_coSymmetric s i h)

/-! ## Claims C7, C8, C10 -/

/-- C7 (confirmed): starting from a state with a symmetric co-occurrence
graph, any sequence of Record calls (track_interaction) keeps the graph
symmetric: the strength stored for B in the adjacency of A always equals
the strength stored for A in the adjacency of B, so B appears among the
co-occurrents of A with strength st exactly when A appears among the
co-occurrents of B with strength st — each edge update increments both
directions by 1 (recommendation_service.py lines 323-336). -/
theorem claim_C7 (s : Store) (tracks : List UserInteraction) (h : coSymmetric s) :
    coSymmetric (tracks.foldl trackStore s) ∧
    (∀ a b st, alookup ((tracks.foldl trackStore s).coOccurrence a) b = some st ↔
               alookup ((tracks.foldl trackStore s).coOccurrence b) a = some st) := by
  have hs := foldl_trackStore_coSymmetric tracks s h
  exact ⟨hs, fun a b st => by rw [hs a b]⟩

/-- Witness for C7 at a concrete reachable state: the empty store is
symmetric, and after the sample history the P1-P2 edge carries strength 2
in both directions. -/
theorem claim_C7_witness :
    (coSymmetric (sampleTracks.foldl trackStore Store.empty) ∧
     (∀ a b st,
        alookup ((sampleTracks.foldl trackStore Store.empty).coOccurrence a) b = some st ↔
        alookup ((sampleTracks.foldl trackStore Store.empty).coOccurrence b) a = some st)) ∧
    alookup ((sampleTracks.foldl trackStore Store.empty).coOccurrence "P1") "P2" = some 2 ∧
    alookup ((sampleTracks.foldl trackStore Store.empty).coOccurrence "P2") "P1" = some 2 :=
  ⟨claim_C7 Store.empty sampleTracks (fun _ _ => rfl),
   by with_unfolding_all decide, by with_unfolding_all decide⟩

/-- C8 (confirmed): a sequence of Record calls in which every interaction
for product P is purchase-typed raises PopularityRank[P] by exactly
(number of P-interactions) * 5.0, regardless of interleaved updates of
other products, and PopularityRank is monotonically non-decreasing under
every Record call (recommendation_service.py lines 45-47 and 20-26). -/
theorem claim_C8 :
    (∀ (s : Store) (tracks : List UserInteraction) (P : String),
      (∀ i ∈ tracks, i.product_id = P → i.interaction_type = InteractionType.purchase) →
      popScore (tracks.foldl trackStore s) P =
        popScore s P + (tracks.countP (fun i => i.product_id == P) : ℚ) * 5) ∧
    (∀ (s : Store) (tracks : List UserInteraction) (q : String),
      popScore s q ≤ popScore (tracks.foldl trackStore s) q) :=
  ⟨fun s tracks P hp => popScore_foldl_tracks P tracks s hp,
   fun s tracks q => popScore_foldl_mono q tracks s⟩

/-- Witness for C8: in the sample history both interactions with P1 are
purchases (and a view of P2 is interleaved); the popularity of P1 grows by
2 * 5 = 10 from the empty store. -/
theorem claim_C8_witness :
    popScore (sampleTracks.foldl trackStore Store.empty) "P1" =
      popScore Store.empty "P1" +
        (sampleTracks.countP (fun i => i.product_id == "P1") : ℚ) * 5 ∧
    popScore (sampleTracks.foldl trackStore Store.empty) "P1" = 10 :=
  ⟨claim_C8.1 Store.empty sampleTracks "P1" (by decide),
   by with_unfolding_all decide⟩

/-- C10 (confirmed): track_interaction returns a Boolean for every failure
pattern of its underlying store steps — True exactly when no step failed,
False exactly when the try-block did not complete — and the /track endpoint
turns a False into an explicit HTTP 500 failure response and a True into
the 201 success response (recommendation_service.py lines 28-59,
recommendations.py lines 108-123). -/
theorem claim_C10 (fs : FailSpec) (s : Store) (i : UserInteraction) :
    ((trackInteraction fs s i).1 = true ↔ fs = noFail) ∧
    ((trackInteraction fs s i).1 = false ↔
      ¬ ∃ s2, trackBody fs s i = Except.ok s2) ∧
    ((apiTrackInteraction fs s i).1 =
        ApiTrackResult.httpError 500 "Failed to track interaction" ↔
      (trackInteraction fs s i).1 = false) ∧
    ((apiTrackInteraction fs s i).1 =
        ApiTrackResult.created "Interaction tracked successfully" ↔
      (trackInteraction fs s i).1 = true) := by
  obtain ⟨f1, f2, f3, f4, f5, f6⟩ := fs
  cases f1 <;> cases f2 <;> cases f3 <;> cases f4 <;> cases f5 <;> cases f6 <;>
    simp [trackInteraction, trackBody, runStep, apiTrackInteraction, noFail,
      Except.instMonad, Except.bind, Except.pure, FailSpec.mk.injEq]

/-! ## Lemmas: guarded defaultdict accumulation -/

theorem mem_keys_daddQ (d : List (String × ℚ)) (k : String) (v : ℚ) (x : String) :
    x ∈ (daddQ d k v).map Prod.fst ↔ x ∈ d.map Prod.fst ∨ x = k := by
  induction d with
  | nil => simp [daddQ]
  | cons e rest ih =>
    obtain ⟨k0, v0⟩ := e
    by_cases h0 : k0 = k
    · subst h0
      have hred : daddQ ((k0, v0) :: rest) k0 v = (k0, v0 + v) :: rest := by
        simp [daddQ]
      rw [hred]
      simp only [List.map_cons, List.mem_cons]
      tauto
    · simp only [daddQ, if_neg h0, List.map_cons, List.mem_cons, ih]
      tauto

theorem nodup_keys_daddQ {d : List (String × ℚ)} (k : String) (v : ℚ)
    (h : (d.map Prod.fst).Nodup) : ((daddQ d k v).map Prod.fst).Nodup := by
  induction d with
  | nil => simp [daddQ]
  | cons e rest ih =>
    obtain ⟨k0, v0⟩ := e
    simp only [List.map_cons, List.nodup_cons] at h
    by_cases h0 : k0 = k
    · subst h0
      have hred : daddQ ((k0, v0) :: rest) k0 v = (k0, v0 + v) :: rest := by
        simp [daddQ]
      rw [hred]
      simp only [List.map_cons, List.nodup_cons]
      exact h
    · simp only [daddQ, if_neg h0, List.map_cons, List.nodup_cons]
      refine ⟨?_, ih h.2⟩
      rw [mem_keys_daddQ]
      rintro (hh | hh)
      · exact h.1 hh
      · exact h0 hh

theorem accInnerFold_alookup (G : String × ℚ → Prop) [DecidablePred G]
    (A : String × ℚ → ℚ) (p : String) (hGp : ∀ e, e.1 = p → G e) :
    ∀ (l : ZSet) (d : List (String × ℚ)),
      alookup (l.foldl (fun d e => if G e then daddQ d e.1 (A e) else d) d) p =
        if l.filter (fun e => e.1 = p) = [] then alookup d p
        else some ((alookup d p).getD 0 + ((l.filter (fun e => e.1 = p)).map A).sum) := by
  intro l
  induction l with
  | nil => intro d; simp
  | cons e t ih =>
    intro d
    rw [List.foldl_cons]
    by_cases he : e.1 = p
    · have hG : G e := hGp e he
      rw [if_pos hG, ih (daddQ d e.1 (A e))]
      have hfl : (e :: t).filter (fun e2 => e2.1 = p) =
          e :: t.filter (fun e2 => e2.1 = p) := by
        simp [List.filter_cons, he]
      rw [hfl]
      have hlk : alookup (daddQ d e.1 (A e)) p =
          some ((alookup d p).getD 0 + A e) := by
        rw [alookup_daddQ, if_pos he, he]
      by_cases ht : t.filter (fun e2 => e2.1 = p) = []
      · rw [if_pos ht, ht, hlk, if_neg (List.cons_ne_nil e [])]
        simp
      · rw [if_neg ht, if_neg (List.cons_ne_nil _ _), hlk]
        simp [add_assoc]
    · have hfl : (e :: t).filter (fun e2 => e2.1 = p) =
          t.filter (fun e2 => e2.1 = p) := by
        simp [List.filter_cons, he]
      rw [hfl]
      by_cases hG : G e
      · rw [if_pos hG, ih (daddQ d e.1 (A e))]
        have hlk : alookup (daddQ d e.1 (A e)) p = alookup d p := by
          rw [alookup_daddQ, if_neg he]
        rw [hlk]
      · rw [if_neg hG, ih d]

theorem accOuterFold_alookup {α : Type} (G : String × ℚ → Prop) [DecidablePred G]
    (fetch : α → ZSet) (amt : α → String × ℚ → ℚ) (p : String)
    (hGp : ∀ e, e.1 = p → G e) :
    ∀ (sources : List α) (d : List (String × ℚ)),
      alookup (sources.foldl (fun d x =>
        (fetch x).foldl (fun d e => if G e then daddQ d e.1 (amt x e) else d) d) d) p =
        if ∀ x ∈ sources, (fetch x).filter (fun e => e.1 = p) = [] then alookup d p
        else some ((alookup d p).getD 0 +
          (sources.map (fun x =>
            (((fetch x).filter (fun e => e.1 = p)).map (amt x)).sum)).sum) := by
  intro sources
  induction sources with
  | nil => intro d; simp
  | cons x t ih =>
    intro d
    rw [List.foldl_cons, ih]
    have hinner := accInnerFold_alookup G (amt x) p hGp (fetch x) d
    by_cases hx : (fetch x).filter (fun e => e.1 = p) = []
    · rw [if_pos hx] at hinner
      by_cases htt : ∀ y ∈ t, (fetch y).filter (fun e => e.1 = p) = []
      · rw [if_pos htt, hinner, if_pos]
        intro y hy
        rcases List.mem_cons.mp hy with rfl | hy
        · exact hx
        · exact htt y hy
      · rw [if_neg htt, hinner, if_neg]
        · rw [List.map_cons, List.sum_cons, hx]
          simp
        · intro hall
          exact htt (fun y hy => hall y (List.mem_cons_of_mem _ hy))
    · rw [if_neg hx] at hinner
      have hnot : ¬ ∀ y ∈ x :: t, (fetch y).filter (fun e => e.1 = p) = [] := by
        intro hall
        exact hx (hall x (List.mem_cons_self _ _))
      rw [if_neg hnot]
      by_cases htt : ∀ y ∈ t, (fetch y).filter (fun e => e.1 = p) = []
      · rw [if_pos htt, hinner]
        have hz : (t.map (fun y =>
            (((fetch y).filter (fun e => e.1 = p)).map (amt y)).sum)).sum = 0 := by
          apply List.sum_eq_zero
          intro q hq
          rcases List.mem_map.mp hq with ⟨y, hy, rfl⟩
          rw [htt y hy]
          simp
        rw [List.map_cons, List.sum_cons, hz]
        simp
      · rw [if_neg htt, hinner]
        rw [List.map_cons, List.sum_cons]
        simp [add_assoc]

theorem mem_keys_dset {α : Type} (d : List (String × α)) (k : String) (v : α) (x : String) :
    x ∈ (dset d k v).map Prod.fst ↔ x ∈ d.map Prod.fst ∨ x = k := by
  induction d with
  | nil => simp [dset]
  | cons e rest ih =>
    obtain ⟨k0, v0⟩ := e
    by_cases h0 : k0 = k
    · subst h0
      have hred : dset ((k0, v0) :: rest) k0 v = (k0, v) :: rest := by
        simp [dset]
      rw [hred]
      simp only [List.map_cons, List.mem_cons]
      tauto
    · simp only [dset, if_neg h0, List.map_cons, List.mem_cons, ih]
      tauto

theorem mem_keys_pyDictOfPairs (l : List (String × ℚ)) (x : String) :
    x ∈ (pyDictOfPairs l).map Prod.fst ↔ x ∈ l.map Prod.fst := by
  have hgen : ∀ (l : List (String × ℚ)) (d : List (String × ℚ)),
      x ∈ ((l.foldl (fun d e => dset d e.1 e.2) d).map Prod.fst) ↔
        x ∈ d.map Prod.fst ∨ x ∈ l.map Prod.fst := by
    intro l
    induction l with
    | nil => intro d; simp
    | cons e t ih =>
      intro d
      rw [List.foldl_cons, ih (dset d e.1 e.2), mem_keys_dset]
      simp only [List.map_cons, List.mem_cons]
      tauto
  unfold pyDictOfPairs
  rw [hgen l []]
  simp

/-! ## Lemmas: the collaborative-filtering accumulation -/

theorem cfScoresDict_inv (s : Store) (user_id : String) :
    ((cfScoresDict s user_id).map Prod.fst).Nodup ∧
    ∀ e ∈ cfScoresDict s user_id, alookup (cfUserProducts s user_id) e.1 = none := by
  unfold cfScoresDict
  refine foldl_pres_mem _ (fun d : List (String × ℚ) => (d.map Prod.fst).Nodup ∧
    ∀ e ∈ d, alookup (cfUserProducts s user_id) e.1 = none) _ ?_ [] ⟨List.nodup_nil, by simp⟩

  intro d src _ hd
  refine foldl_pres_mem _ (fun d : List (String × ℚ) => (d.map Prod.fst).Nodup ∧
    ∀ e ∈ d, alookup (cfUserProducts s user_id) e.1 = none) _ ?_ d hd
  intro d2 e _ hd2
  by_cases hG : alookup (cfUserProducts s user_id) e.1 = none
  · rw [if_pos hG]
    exact ⟨nodup_keys_daddQ _ _ hd2.1, forall_mem_daddQ hd2.2 hG (fun v0 w hv => hv)⟩
  · rw [if_neg hG]
    exact hd2

theorem cfScoresDict_alookup (s : Store) (user_id p : String)
    (hp : alookup (cfUserProducts s user_id) p = none) :
    alookup (cfScoresDict s user_id) p =
      if ∀ x ∈ (cfUserProducts s user_id).take 10,
          (cfFetch s x.1).filter (fun e => e.1 = p) = [] then none
      else some (cfSpecScore s user_id p) := by
  have h := accOuterFold_alookup (fun e => alookup (cfUserProducts s user_id) e.1 = none)
    (fun src => cfFetch s src.1) (fun src e => e.2 * src.2) p
    (fun e he => by show alookup (cfUserProducts s user_id) e.1 = none; rw [he]; exact hp)
    ((cfUserProducts s user_id).take 10) []
  simp only [alookup, Option.getD_none, zero_add] at h
  refine Eq.trans (show alookup (cfScoresDict s user_id) p = _ from h) ?_
  rfl

theorem collaborativeFiltering_mem {s : Store} {user_id : String} {limit : Nat}
    {r : RecommendedProduct} (hr : r ∈ collaborativeFiltering s user_id limit) :
    alookup (cfUserProducts s user_id) r.product_id = none ∧
    r.score = cfSpecScore s user_id r.product_id ∧
    r.reason = "Customers like you also bought" := by
  unfold collaborativeFiltering at hr
  by_cases hlen : (getUserInteractions s user_id).length < min_interactions_for_cf
  · rw [if_pos hlen] at hr
    simp at hr
  · rw [if_neg hlen] at hr
    rcases List.mem_map.mp hr with ⟨e, he, rfl⟩
    have he3 : e ∈ cfScoresDict s user_id :=
      (mem_pySortDesc _ e _).mp ((List.take_sublist _ _).subset he)
    have hinv := cfScoresDict_inv s user_id
    have hup : alookup (cfUserProducts s user_id) e.1 = none := hinv.2 e he3
    have hlk : alookup (cfScoresDict s user_id) e.1 = some e.2 :=
      alookup_eq_some_of_mem hinv.1 he3
    refine ⟨hup, ?_, rfl⟩
    have hchar := cfScoresDict_alookup s user_id e.1 hup
    rw [hlk] at hchar
    by_cases hall : ∀ x ∈ (cfUserProducts s user_id).take 10,
        (cfFetch s x.1).filter (fun e2 => e2.1 = e.1) = []
    · rw [if_pos hall] at hchar
      exact absurd hchar (by simp)
    · rw [if_neg hall] at hchar
      exact Option.some.inj hchar

theorem cfContribution_compare (s : Store) (p a b : String) (st : ℚ) (hst : 0 < st)
    (ha : (cfFetch s a).filter (fun e => e.1 = p) = [(p, st)])
    (hb : (cfFetch s b).filter (fun e => e.1 = p) = [(p, st)]) :
    cfContribution s p (b, interaction_weights InteractionType.view) <
      cfContribution s p (a, interaction_weights InteractionType.purchase) := by
  unfold cfContribution
  simp only [ha, hb, interaction_weights, List.map_cons, List.map_nil, List.sum_cons,
    List.sum_nil, add_zero]
  nlinarith [hst]

/-! ## Lemmas: the frequently-bought-together accumulation -/

theorem fbtScoresDict_eq (s : Store) (pids : List String) (limit : Nat) :
    fbtScoresDict s pids limit =
      pids.foldl (fun d x =>
        (fbtFetch s limit x).foldl (fun d e =>
          if e.1 ∉ pids then daddQ d e.1 e.2 else d) d) [] := by
  unfold fbtScoresDict
  congr 1
  funext d x
  congr 1
  funext d2 e
  by_cases h : e.1 ∈ pids <;> simp [h]

theorem fbtScoresDict_inv (s : Store) (pids : List String) (limit : Nat) :
    ((fbtScoresDict s pids limit).map Prod.fst).Nodup ∧
    ∀ e ∈ fbtScoresDict s pids limit, e.1 ∉ pids := by
  unfold fbtScoresDict
  refine foldl_pres_mem _ (fun d : List (String × ℚ) => (d.map Prod.fst).Nodup ∧ ∀ e ∈ d, e.1 ∉ pids) _
    ?_ [] ?_
  swap
  · exact ⟨List.nodup_nil, by simp⟩
  intro d pid _ hd
  refine foldl_pres_mem _ (fun d : List (String × ℚ) => (d.map Prod.fst).Nodup ∧ ∀ e ∈ d, e.1 ∉ pids) _
    ?_ d hd
  intro d2 e _ hd2
  by_cases hG : e.1 ∈ pids
  · rw [if_pos hG]
    exact hd2
  · rw [if_neg hG]
    exact ⟨nodup_keys_daddQ _ _ hd2.1, forall_mem_daddQ hd2.2 hG (fun v0 w hv => hv)⟩

theorem fbtScoresDict_alookup (s : Store) (pids : List String) (limit : Nat) (p : String)
    (hp : p ∉ pids) :
    alookup (fbtScoresDict s pids limit) p =
      if ∀ x ∈ pids, (fbtFetch s limit x).filter (fun e => e.1 = p) = [] then none
      else some (fbtSpecScore s pids limit p) := by
  rw [fbtScoresDict_eq]
  have h := accOuterFold_alookup (fun e => e.1 ∉ pids)
    (fun x => fbtFetch s limit x) (fun _ e => e.2) p
    (fun e he => by show e.1 ∉ pids; rw [he]; exact hp) pids []
  simp only [alookup, Option.getD_none, zero_add] at h
  refine Eq.trans (show _ = _ from h) ?_
  rfl

theorem getFrequentlyBoughtTogether_mem {s : Store} {pids : List String} {limit : Nat}
    {r : RecommendedProduct} (hr : r ∈ getFrequentlyBoughtTogether s pids limit) :
    r.product_id ∉ pids ∧ r.score = fbtSpecScore s pids limit r.product_id ∧
    r.reason = "Frequently bought together" := by
  unfold getFrequentlyBoughtTogether at hr
  rcases List.mem_map.mp hr with ⟨e, he, rfl⟩
  have he3 : e ∈ fbtScoresDict s pids limit :=
    (mem_pySortDesc _ e _).mp ((List.take_sublist _ _).subset he)
  have hinv := fbtScoresDict_inv s pids limit
  have hout : e.1 ∉ pids := hinv.2 e he3
  have hlk : alookup (fbtScoresDict s pids limit) e.1 = some e.2 :=
    alookup_eq_some_of_mem hinv.1 he3
  refine ⟨hout, ?_, rfl⟩
  have hchar := fbtScoresDict_alookup s pids limit e.1 hout
  rw [hlk] at hchar
  by_cases hall : ∀ x ∈ pids, (fbtFetch s limit x).filter (fun e2 => e2.1 = e.1) = []
  · rw [if_pos hall] at hchar
    exact absurd hchar (by simp)
  · rw [if_neg hall] at hchar
    exact Option.some.inj hchar

theorem getFrequentlyBoughtTogether_sorted (s : Store) (pids : List String) (limit : Nat) :
    sortedByScoreDesc (getFrequentlyBoughtTogether s pids limit) ∧
    (getFrequentlyBoughtTogether s pids limit).length ≤ limit := by
  unfold getFrequentlyBoughtTogether sortedByScoreDesc
  constructor
  · rw [List.chain'_map]
    exact (chain_pySortDesc (fun e => e.2) (fbtScoresDict s pids limit)).take _
  · simp [List.length_take]

/-! ## Claims C4 and C5 -/

/-- C4 counterexample: _collaborative_filtering fetches ZREVRANGE 0..20,
i.e. 21 co-occurrents per source product, not the "up-to-20" the claim
states.  In cfCounterStore product A has 21 co-occurrents; all 21 are
fetched (21 > 20) and the 21st-ranked one, B21, receives a contribution
and appears in the output. -/
theorem claim_C4_counterexample :
    (cfFetch cfCounterStore "A").length = 21 ∧
    ¬ ((cfFetch cfCounterStore "A").length ≤ 20) ∧
    RecommendedProduct.mk "B21" 2 "Customers like you also bought" ∈
      collaborativeFiltering cfCounterStore "U" 25 := by
  with_unfolding_all decide

/-- C4 (corrected: each source fetches up to 21 co-occurrents — sorted-set
indices 0..20 — rather than up to 20; everything else as claimed): every
output of _collaborative_filtering excludes the products the user has
interacted with, carries the additive accumulation
score[neighbor] = sum of strength * weight over the (up to 10) most recent
distinct source products, and for equal positive co-occurrence strengths a
purchased source (weight 5.0) contributes strictly more than a viewed
source (weight 1.0). -/
theorem claim_C4 :
    (∀ (s : Store) (user_id : String) (limit : Nat) (r : RecommendedProduct),
      r ∈ collaborativeFiltering s user_id limit →
      (∀ j ∈ getUserInteractions s user_id, r.product_id ≠ j.product_id) ∧
      r.score = cfSpecScore s user_id r.product_id ∧
      r.reason = "Customers like you also bought") ∧
    (∀ (s : Store) (pid : String), (cfFetch s pid).length ≤ 21) ∧
    (∀ (s : Store) (p a b : String) (st : ℚ), 0 < st →
      (cfFetch s a).filter (fun e => e.1 = p) = [(p, st)] →
      (cfFetch s b).filter (fun e => e.1 = p) = [(p, st)] →
      cfContribution s p (b, interaction_weights InteractionType.view) <
        cfContribution s p (a, interaction_weights InteractionType.purchase)) := by
  refine ⟨?_, ?_, ?_⟩
  · intro s user_id limit r hr
    have h := collaborativeFiltering_mem hr
    refine ⟨?_, h.2.1, h.2.2⟩
    intro j hj heq
    have hmem : r.product_id ∈
        ((getUserInteractions s user_id).map (fun i => (i.product_id, i.score))).map
          Prod.fst := by
      simp only [List.map_map, List.mem_map]
      exact ⟨j, hj, heq.symm⟩
    have hkeys := (alookup_eq_none_iff (cfUserProducts s user_id) r.product_id).mp h.1
    exact hkeys ((mem_keys_pyDictOfPairs _ _).mpr hmem)
  · intro s pid
    exact length_zrevrangeTo _ 20
  · intro s p a b st hst ha hb
    exact cfContribution_compare s p a b st hst ha hb

/-- Witness for C4: in cfWitnessStore the output item N is none of the
products U interacted with, its score is the accumulated 4*5 + 4*1 = 24,
and the purchase-weighted source A contributes strictly more than the
view-weighted source B at equal strength 4. -/
theorem claim_C4_witness :
    ((∀ j ∈ getUserInteractions cfWitnessStore "U",
        (RecommendedProduct.mk "N" 24 "Customers like you also bought").product_id ≠
          j.product_id) ∧
      (RecommendedProduct.mk "N" 24 "Customers like you also bought").score =
        cfSpecScore cfWitnessStore "U" "N" ∧
      (RecommendedProduct.mk "N" 24 "Customers like you also bought").reason =
        "Customers like you also bought") ∧
    cfContribution cfWitnessStore "N" ("B", interaction_weights InteractionType.view) <
      cfContribution cfWitnessStore "N" ("A", interaction_weights InteractionType.purchase) := by
  constructor
  · exact claim_C4.1 cfWitnessStore "U" 10 _ (by with_unfolding_all decide)
  · exact claim_C4.2.2 cfWitnessStore "N" "A" "B" 4 (by norm_num)
      (by with_unfolding_all decide) (by with_unfolding_all decide)

/-- C5 counterexample: get_frequently_bought_together fetches
ZREVRANGE 0..(2*limit), i.e. 2*limit+1 co-occurrents per input product,
not the "at most 2*limit" the claim states.  With limit = 1 the code
fetches 3 co-occurrents for each input; the third-ranked co-occurrent Z of
both A and B accumulates 8+8 = 16 and wins the output, which no 2-per-input
fetch could produce. -/
theorem claim_C5_counterexample :
    (fbtFetch fbtCounterStore 1 "A").length = 3 ∧
    ¬ ((fbtFetch fbtCounterStore 1 "A").length ≤ 2 * 1) ∧
    getFrequentlyBoughtTogether fbtCounterStore ["A", "B"] 1 =
      [⟨"Z", 16, "Frequently bought together"⟩] := by
  with_unfolding_all decide

/-- C5 (corrected: each input fetches up to 2*limit+1 co-occurrents —
sorted-set indices 0..2*limit — rather than at most 2*limit; everything
else as claimed): outputs exclude the input set, scores are the additive
accumulation of fetched strengths across inputs, the result is sorted by
non-increasing score and truncated to limit, and in the concrete scenario
(three users each purchase P1 then P2) FrequentlyBoughtTogether([P1], 5)
returns P2 with score 3. -/
theorem claim_C5 :
    (∀ (s : Store) (limit : Nat) (pid : String),
      (fbtFetch s limit pid).length ≤ 2 * limit + 1) ∧
    (∀ (s : Store) (pids : List String) (limit : Nat) (r : RecommendedProduct),
      r ∈ getFrequentlyBoughtTogether s pids limit →
      r.product_id ∉ pids ∧ r.score = fbtSpecScore s pids limit r.product_id ∧
      r.reason = "Frequently bought together") ∧
    (∀ (s : Store) (pids : List String) (limit : Nat),
      sortedByScoreDesc (getFrequentlyBoughtTogether s pids limit) ∧
      (getFrequentlyBoughtTogether s pids limit).length ≤ limit) ∧
    getFrequentlyBoughtTogether (replay fbtScenarioEvents) ["P1"] 5 =
      [⟨"P2", 3, "Frequently bought together"⟩] := by
  refine ⟨?_, ?_, ?_, ?_⟩
  · intro s limit pid
    have h := length_zrevrangeTo (s.coOccurrence pid) (limit * 2)
    calc (fbtFetch s limit pid).length ≤ limit * 2 + 1 := h
      _ ≤ 2 * limit + 1 := by omega
  · intro s pids limit r hr
    exact getFrequentlyBoughtTogether_mem hr
  · intro s pids limit
    exact getFrequentlyBoughtTogether_sorted s pids limit
  · with_unfolding_all decide

/-- Witness for C5: the membership conjunct applied to the concrete
scenario output P2. -/
theorem claim_C5_witness :
    (RecommendedProduct.mk "P2" 3 "Frequently bought together").product_id ∉ ["P1"] ∧
    (RecommendedProduct.mk "P2" 3 "Frequently bought together").score =
      fbtSpecScore (replay fbtScenarioEvents) ["P1"] 5 "P2" ∧
    (RecommendedProduct.mk "P2" 3 "Frequently bought together").reason =
      "Frequently bought together" :=
  claim_C5.2.1 (replay fbtScenarioEvents) ["P1"] 5 _ (by with_unfolding_all decide)

/-! ## Lemmas: get_similar_products -/

theorem simCoStage_gen (co : ZSet) :
    ∀ d, (co.map Prod.fst).Nodup → (∀ e ∈ co, e.1 ∉ d.map Prod.fst) →
      co.foldl (fun d e => dset d e.1 ⟨e.1, e.2, "Frequently bought together"⟩) d =
        d ++ co.map (fun e =>
          (e.1, (⟨e.1, e.2, "Frequently bought together"⟩ : RecommendedProduct))) := by
  induction co with
  | nil => intro d _ _; simp
  | cons e t ih =>
    intro d hnd hfresh
    rw [List.foldl_cons]
    have hkd : alookup d e.1 = none :=
      (alookup_eq_none_iff d e.1).mpr (hfresh e (List.mem_cons_self _ _))
    rw [dset_eq_append hkd]
    simp only [List.map_cons, List.nodup_cons] at hnd
    have hfr2 : ∀ e2 ∈ t,
        e2.1 ∉ (d ++ [(e.1,
          (⟨e.1, e.2, "Frequently bought together"⟩ : RecommendedProduct))]).map Prod.fst := by
      intro e2 he2
      simp only [List.map_append, List.mem_append, List.map_cons, List.map_nil,
        List.mem_singleton]
      rintro (h | h)
      · exact hfresh e2 (List.mem_cons_of_mem _ he2) h
      · exact hnd.1 (h ▸ List.mem_map.mpr ⟨e2, he2, rfl⟩)
    rw [ih _ hnd.2 hfr2]
    simp

theorem simCoStage_eq {co : ZSet} (h : (co.map Prod.fst).Nodup) :
    simCoStage co = co.map (fun e =>
      (e.1, (⟨e.1, e.2, "Frequently bought together"⟩ : RecommendedProduct))) := by
  unfold simCoStage
  simpa using simCoStage_gen co [] h (by simp)

theorem catFold_entries (product_id : String) (half : ℚ) :
    ∀ (l : List String) (d : List (String × RecommendedProduct)),
      ∀ en ∈ l.foldl (fun d pid =>
        if pid ≠ product_id ∧ alookup d pid = none then
          dset d pid ⟨pid, half, "Same category"⟩ else d) d,
        en ∈ d ∨ (en.2 = ⟨en.1, half, "Same category"⟩ ∧ en.1 ≠ product_id ∧
          alookup d en.1 = none) := by
  intro l
  induction l with
  | nil => intro d en hen; exact Or.inl hen
  | cons p2 t ih =>
    intro d en hen
    rw [List.foldl_cons] at hen
    by_cases hcond : p2 ≠ product_id ∧ alookup d p2 = none
    · rw [if_pos hcond] at hen
      rcases ih (dset d p2 _) en hen with h | h
      · rw [dset_eq_append hcond.2] at h
        rcases List.mem_append.mp h with h | h
        · exact Or.inl h
        · simp only [List.mem_singleton] at h
          subst h
          exact Or.inr ⟨rfl, hcond.1, hcond.2⟩
      · refine Or.inr ⟨h.1, h.2.1, ?_⟩
        have h3 := h.2.2
        rw [alookup_dset] at h3
        by_cases hp : p2 = en.1
        · rw [if_pos hp] at h3
          exact absurd h3 (by simp)
        · rw [if_neg hp] at h3
          exact h3
    · rw [if_neg hcond] at hen
      exact ih d en hen

theorem simCatStage_entries (s : Store) (product_id : String) (limit : Nat)
    (d : List (String × RecommendedProduct)) :
    ∀ en ∈ simCatStage s product_id limit d,
      en ∈ d ∨ (en.2 = ⟨en.1, 1/2, "Same category"⟩ ∧ en.1 ≠ product_id ∧
        alookup d en.1 = none) := by
  unfold simCatStage
  split
  · intro en hen
    exact Or.inl hen
  · rename_i product_data heq
    intro en hen
    by_cases hc : product_data.category_id = ""
    · rw [if_pos hc] at hen
      exact Or.inl hen
    · rw [if_neg hc] at hen
      exact catFold_entries product_id (1/2) _ d en hen

theorem simCatStage_skip (s : Store) (product_id : String) (limit : Nat)
    (d : List (String × RecommendedProduct)) (hm : s.productMeta product_id = none) :
    simCatStage s product_id limit d = d := by
  unfold simCatStage
  rw [hm]
/-! ## Claim C9 -/

/-- C9 (confirmed): on a cache miss, every item get_similar_products
returns is either a fetched co-occurrent kept with its strength as score
and the co-purchase reason (so the co-occurrence entry wins whenever the
product also lies in the category), or a category sibling distinct from
the queried product, absent from the fetched co-occurrents, with fixed
score 0.5; the merged result is sorted by non-increasing score and
truncated to limit; and when product metadata is absent the result is
exactly the sorted co-occurrence entries (category step skipped, no
error).  The Nodup hypothesis is the Redis invariant that sorted-set
members are unique. -/
theorem claim_C9 (s : Store) (product_id : String) (limit : Nat)
    (hcache : s.similarCache product_id = none)
    (hnd : ((s.coOccurrence product_id).map Prod.fst).Nodup) :
    (∀ r ∈ (getSimilarProducts s product_id limit).1,
      ((r.product_id, r.score) ∈ simCoFetch s product_id limit ∧
        r.reason = "Frequently bought together") ∨
      (r.score = 1/2 ∧ r.reason = "Same category" ∧ r.product_id ≠ product_id ∧
        r.product_id ∉ (simCoFetch s product_id limit).map Prod.fst)) ∧
    sortedByScoreDesc (getSimilarProducts s product_id limit).1 ∧
    (getSimilarProducts s product_id limit).1.length ≤ limit ∧
    (s.productMeta product_id = none →
      (getSimilarProducts s product_id limit).1 =
        (pySortByScoreDesc ((simCoFetch s product_id limit).map
          (fun e => ⟨e.1, e.2, "Frequently bought together"⟩))).take limit) := by
  have hout : (getSimilarProducts s product_id limit).1 =
      computeSimilar s product_id limit := by
    unfold getSimilarProducts
    rw [hcache]
  have hndF : ((simCoFetch s product_id limit).map Prod.fst).Nodup :=
    nodup_keys_zrevrangeTo hnd _
  refine ⟨?_, ?_, ?_, ?_⟩
  · intro r hr
    rw [hout] at hr
    unfold computeSimilar at hr
    rcases List.mem_map.mp ((mem_pySortDesc _ r _).mp
      ((List.take_sublist _ _).subset hr)) with ⟨en, hen, rfl⟩
    rcases simCatStage_entries s product_id limit _ en hen with h | h
    · rw [simCoStage_eq hndF] at h
      rcases List.mem_map.mp h with ⟨e, he, rfl⟩
      exact Or.inl ⟨by simpa using he, rfl⟩
    · refine Or.inr ?_
      have hkeys : en.1 ∉ ((simCoStage (simCoFetch s product_id limit)).map Prod.fst) :=
        (alookup_eq_none_iff _ _).mp h.2.2
      rw [simCoStage_eq hndF] at hkeys
      have hkeys2 : en.1 ∉ (simCoFetch s product_id limit).map Prod.fst := by
        simpa [List.map_map] using hkeys
      rw [h.1]
      exact ⟨rfl, rfl, h.2.1, hkeys2⟩
  · rw [hout]
    unfold computeSimilar sortedByScoreDesc pySortByScoreDesc
    exact (chain_pySortDesc (fun r : RecommendedProduct => r.score) _).take _
  · rw [hout]
    unfold computeSimilar
    simp [List.length_take]
  · intro hm
    rw [hout]
    simp only [computeSimilar]
    rw [simCatStage_skip s product_id limit _ hm, simCoStage_eq hndF, List.map_map]
    rfl

/-- Witness for C9 at simWitnessStore: the result keeps the co-occurrent C1
at strength 4 ahead of the category sibling S1 at 0.5, and the queried
product P is excluded. -/
theorem claim_C9_witness :
    ((∀ r ∈ (getSimilarProducts simWitnessStore "P" 10).1,
      ((r.product_id, r.score) ∈ simCoFetch simWitnessStore "P" 10 ∧
        r.reason = "Frequently bought together") ∨
      (r.score = 1/2 ∧ r.reason = "Same category" ∧ r.product_id ≠ "P" ∧
        r.product_id ∉ (simCoFetch simWitnessStore "P" 10).map Prod.fst)) ∧
    sortedByScoreDesc (getSimilarProducts simWitnessStore "P" 10).1 ∧
    (getSimilarProducts simWitnessStore "P" 10).1.length ≤ 10 ∧
    (simWitnessStore.productMeta "P" = none →
      (getSimilarProducts simWitnessStore "P" 10).1 =
        (pySortByScoreDesc ((simCoFetch simWitnessStore "P" 10).map
          (fun e => ⟨e.1, e.2, "Frequently bought together"⟩))).take 10)) ∧
    (getSimilarProducts simWitnessStore "P" 10).1 =
      [⟨"C1", 4, "Frequently bought together"⟩, ⟨"S1", 1/2, "Same category"⟩] := by
  constructor
  · exact claim_C9 simWitnessStore "P" 10 rfl (by with_unfolding_all decide)
  · with_unfolding_all decide

/-! ## Lemmas: the three personalize merge steps -/

theorem contentStep_lookup_other (excluded : List String)
    (d : List (String × RecommendedProduct)) (a : RecommendedProduct) (p : String)
    (h : a.product_id ≠ p ∨ p ∈ excluded) :
    alookup (contentStep excluded d a) p = alookup d p := by
  unfold contentStep
  by_cases hae : a.product_id ∈ excluded
  · rw [if_pos hae]
  · rw [if_neg hae]
    have hap : a.product_id ≠ p := by
      rcases h with h | h
      · exact h
      · intro he
        exact hae (he ▸ h)
    cases hl : alookup d a.product_id
    · simp only [hl]
      rw [alookup_dset, if_neg hap]
    · simp only [hl]
      rw [alookup_dmodify, if_neg hap]

theorem contentStep_lookup_insert (excluded : List String)
    (d : List (String × RecommendedProduct)) (a : RecommendedProduct) (p : String)
    (hpe : p ∉ excluded) (hap : a.product_id = p) (hd : alookup d p = none) :
    alookup (contentStep excluded d a) p =
      some { a with reason := "Similar to items you viewed" } := by
  unfold contentStep
  rw [if_neg (fun hh => hpe (hap ▸ hh))]
  rw [hap, hd]
  rw [alookup_dset]
  simp [hap]

theorem contentStep_lookup_add (excluded : List String)
    (d : List (String × RecommendedProduct)) (a : RecommendedProduct) (p : String)
    (hpe : p ∉ excluded) (hap : a.product_id = p) (r : RecommendedProduct)
    (hd : alookup d p = some r) :
    alookup (contentStep excluded d a) p =
      some { r with score := r.score + a.score * (1/2) } := by
  unfold contentStep
  rw [if_neg (fun hh => hpe (hap ▸ hh))]
  rw [hap, hd]
  rw [alookup_dmodify, if_pos rfl, hd]
  rfl

theorem cfStep_lookup_other (excluded : List String)
    (d : List (String × RecommendedProduct)) (a : RecommendedProduct) (p : String)
    (h : a.product_id ≠ p ∨ p ∈ excluded) :
    alookup (cfStep excluded d a) p = alookup d p := by
  unfold cfStep
  by_cases hae : a.product_id ∈ excluded
  · rw [if_pos hae]
  · rw [if_neg hae]
    have hap : a.product_id ≠ p := by
      rcases h with h | h
      · exact h
      · intro he
        exact hae (he ▸ h)
    cases hl : alookup d a.product_id
    · simp only [hl]
      rw [alookup_dset, if_neg hap]
    · simp only [hl]
      rw [alookup_dmodify, if_neg hap]

theorem cfStep_lookup_insert (excluded : List String)
    (d : List (String × RecommendedProduct)) (a : RecommendedProduct) (p : String)
    (hpe : p ∉ excluded) (hap : a.product_id = p) (hd : alookup d p = none) :
    alookup (cfStep excluded d a) p = some a := by
  unfold cfStep
  rw [if_neg (fun hh => hpe (hap ▸ hh))]
  rw [hap, hd]
  rw [alookup_dset]
  simp [hap]

theorem cfStep_lookup_add (excluded : List String)
    (d : List (String × RecommendedProduct)) (a : RecommendedProduct) (p : String)
    (hpe : p ∉ excluded) (hap : a.product_id = p) (r : RecommendedProduct)
    (hd : alookup d p = some r) :
    alookup (cfStep excluded d a) p = some { r with score := r.score + a.score } := by
  unfold cfStep
  rw [if_neg (fun hh => hpe (hap ▸ hh))]
  rw [hap, hd]
  rw [alookup_dmodify, if_pos rfl, hd]
  rfl

theorem catStep_lookup_other (excluded : List String)
    (d : List (String × RecommendedProduct)) (a : RecommendedProduct) (p : String)
    (h : a.product_id ≠ p ∨ p ∈ excluded) :
    alookup (catStep excluded d a) p = alookup d p := by
  unfold catStep
  by_cases hae : a.product_id ∈ excluded
  · rw [if_pos hae]
  · rw [if_neg hae]
    have hap : a.product_id ≠ p := by
      rcases h with h | h
      · exact h
      · intro he
        exact hae (he ▸ h)
    cases hl : alookup d a.product_id
    · simp only [hl]
      rw [alookup_dset, if_neg hap]
    · simp only [hl]
      rw [alookup_dmodify, if_neg hap]

theorem catStep_lookup_insert (excluded : List String)
    (d : List (String × RecommendedProduct)) (a : RecommendedProduct) (p : String)
    (hpe : p ∉ excluded) (hap : a.product_id = p) (hd : alookup d p = none) :
    alookup (catStep excluded d a) p =
      some { a with reason := "Popular in your favorite categories" } := by
  unfold catStep
  rw [if_neg (fun hh => hpe (hap ▸ hh))]
  rw [hap, hd]
  rw [alookup_dset]
  simp [hap]

theorem catStep_lookup_add (excluded : List String)
    (d : List (String × RecommendedProduct)) (a : RecommendedProduct) (p : String)
    (hpe : p ∉ excluded) (hap : a.product_id = p) (r : RecommendedProduct)
    (hd : alookup d p = some r) :
    alookup (catStep excluded d a) p =
      some { r with score := r.score + a.score * (3/10) } := by
  unfold catStep
  rw [if_neg (fun hh => hpe (hap ▸ hh))]
  rw [hap, hd]
  rw [alookup_dmodify, if_pos rfl, hd]
  rfl

/-! ## Lemmas: merge-stage folds -/

theorem contentFold_alookup (excluded : List String) (p : String) (hpe : p ∉ excluded) :
    ∀ (l : List RecommendedProduct) (d : List (String × RecommendedProduct)),
      alookup (l.foldl (contentStep excluded) d) p =
        match alookup d p, l.filter (fun r => r.product_id = p) with
        | some r, fl =>
          some { r with score := r.score + (fl.map (fun r2 => r2.score * (1/2))).sum }
        | none, [] => none
        | none, r0 :: rest =>
          some ⟨p, r0.score + (rest.map (fun r2 => r2.score * (1/2))).sum,
            "Similar to items you viewed"⟩ := by
  intro l
  induction l with
  | nil =>
    intro d
    cases hd : alookup d p
    · simp [hd]
    · rename_i r
      cases r
      simp [hd]
  | cons a t ih =>
    intro d
    rw [List.foldl_cons, ih (contentStep excluded d a)]
    by_cases hap : a.product_id = p
    · have hfl : (a :: t).filter (fun r2 => r2.product_id = p) =
          a :: t.filter (fun r2 => r2.product_id = p) := by
        simp [List.filter_cons, hap]
      rw [hfl]
      cases hd : alookup d p
      · rw [contentStep_lookup_insert excluded d a p hpe hap hd]
        cases a
        simp only at hap
        subst hap
        simp
      · rename_i r
        rw [contentStep_lookup_add excluded d a p hpe hap r hd]
        cases r
        simp [add_assoc]
    · have hfl : (a :: t).filter (fun r2 => r2.product_id = p) =
          t.filter (fun r2 => r2.product_id = p) := by
        simp [List.filter_cons, hap]
      rw [hfl, contentStep_lookup_other excluded d a p (Or.inl hap)]

theorem cfFold_alookup (excluded : List String) (p : String) (hpe : p ∉ excluded) :
    ∀ (l : List RecommendedProduct) (d : List (String × RecommendedProduct)),
      alookup (l.foldl (cfStep excluded) d) p =
        match alookup d p, l.filter (fun r => r.product_id = p) with
        | some r, fl =>
          some { r with score := r.score + (fl.map (fun r2 => r2.score)).sum }
        | none, [] => none
        | none, r0 :: rest =>
          some { r0 with score := r0.score + (rest.map (fun r2 => r2.score)).sum } := by
  intro l
  induction l with
  | nil =>
    intro d
    cases hd : alookup d p
    · simp [hd]
    · rename_i r
      cases r
      simp [hd]
  | cons a t ih =>
    intro d
    rw [List.foldl_cons, ih (cfStep excluded d a)]
    by_cases hap : a.product_id = p
    · have hfl : (a :: t).filter (fun r2 => r2.product_id = p) =
          a :: t.filter (fun r2 => r2.product_id = p) := by
        simp [List.filter_cons, hap]
      rw [hfl]
      cases hd : alookup d p
      · rw [cfStep_lookup_insert excluded d a p hpe hap hd]
      · rename_i r
        rw [cfStep_lookup_add excluded d a p hpe hap r hd]
        cases r
        simp [add_assoc]
    · have hfl : (a :: t).filter (fun r2 => r2.product_id = p) =
          t.filter (fun r2 => r2.product_id = p) := by
        simp [List.filter_cons, hap]
      rw [hfl, cfStep_lookup_other excluded d a p (Or.inl hap)]

theorem catFold_alookup (excluded : List String) (p : String) (hpe : p ∉ excluded) :
    ∀ (l : List RecommendedProduct) (d : List (String × RecommendedProduct)),
      alookup (l.foldl (catStep excluded) d) p =
        match alookup d p, l.filter (fun r => r.product_id = p) with
        | some r, fl =>
          some { r with score := r.score + (fl.map (fun r2 => r2.score * (3/10))).sum }
        | none, [] => none
        | none, r0 :: rest =>
          some ⟨p, r0.score + (rest.map (fun r2 => r2.score * (3/10))).sum,
            "Popular in your favorite categories"⟩ := by
  intro l
  induction l with
  | nil =>
    intro d
    cases hd : alookup d p
    · simp [hd]
    · rename_i r
      cases r
      simp [hd]
  | cons a t ih =>
    intro d
    rw [List.foldl_cons, ih (catStep excluded d a)]
    by_cases hap : a.product_id = p
    · have hfl : (a :: t).filter (fun r2 => r2.product_id = p) =
          a :: t.filter (fun r2 => r2.product_id = p) := by
        simp [List.filter_cons, hap]
      rw [hfl]
      cases hd : alookup d p
      · rw [catStep_lookup_insert excluded d a p hpe hap hd]
        cases a
        simp only at hap
        subst hap
        simp
      · rename_i r
        rw [catStep_lookup_add excluded d a p hpe hap r hd]
        cases r
        simp [add_assoc]
    · have hfl : (a :: t).filter (fun r2 => r2.product_id = p) =
          t.filter (fun r2 => r2.product_id = p) := by
        simp [List.filter_cons, hap]
      rw [hfl, catStep_lookup_other excluded d a p (Or.inl hap)]

theorem mergeSignals_excluded (excluded : List String)
    (contentLists : List (List RecommendedProduct)) (cfList catList : List RecommendedProduct)
    (p : String) (hpe : p ∈ excluded) :
    alookup (mergeSignals excluded contentLists cfList catList) p = none := by
  unfold mergeSignals
  refine foldl_pres_mem _ (fun d : List (String × RecommendedProduct) => alookup d p = none)
    catList (fun d2 a _ h2 => (catStep_lookup_other excluded d2 a p (Or.inr hpe)).trans h2) _ ?_
  refine foldl_pres_mem _ (fun d : List (String × RecommendedProduct) => alookup d p = none)
    cfList (fun d2 a _ h2 => (cfStep_lookup_other excluded d2 a p (Or.inr hpe)).trans h2) _ ?_
  refine foldl_pres_mem _ (fun d : List (String × RecommendedProduct) => alookup d p = none)
    contentLists ?_ [] rfl
  intro d2 l _ h2
  exact foldl_pres_mem _ (fun d : List (String × RecommendedProduct) => alookup d p = none)
    l (fun d3 a _ h3 => (contentStep_lookup_other excluded d3 a p (Or.inr hpe)).trans h3) _ h2

/-! ## Claim C2 -/

/-- C2 (confirmed): on fixed signal inputs, for any product p present in
the merged dict of get_personalized_recommendations, the recorded reason is
that of the first signal (content, collaborative, category, in that fixed
order) that introduces p — later signals only add to the score — and the
final score is the additive accumulation of all signals: the first
occurrence enters at its raw score, later content occurrences add
score * 0.5, collaborative occurrences add their full score, later
category occurrences add score * 0.3
(recommendation_service.py lines 89-132). -/
theorem claim_C2 (excluded : List String) (contentLists : List (List RecommendedProduct))
    (cfList catList : List RecommendedProduct) (p : String) (r : RecommendedProduct)
    (h : alookup (mergeSignals excluded contentLists cfList catList) p = some r) :
    r.reason = firstIntroReason p contentLists.flatten cfList ∧
    r.score = blendedScore p contentLists.flatten cfList catList := by
  by_cases hpe : p ∈ excluded
  · rw [mergeSignals_excluded excluded contentLists cfList catList p hpe] at h
    exact absurd h (by simp)
  · unfold mergeSignals at h
    rw [← List.foldl_flatten] at h
    rw [catFold_alookup excluded p hpe catList _] at h
    rw [cfFold_alookup excluded p hpe cfList _] at h
    rw [contentFold_alookup excluded p hpe contentLists.flatten []] at h
    obtain ⟨rp, rs, rr⟩ := r
    rcases hc : contentLists.flatten.filter (fun r2 => r2.product_id = p) with _ | ⟨c0, crest⟩ <;>
      rcases hf : cfList.filter (fun r2 => r2.product_id = p) with _ | ⟨f0, frest⟩ <;>
        rcases hk : catList.filter (fun r2 => r2.product_id = p) with _ | ⟨k0, krest⟩ <;>
          rw [hc, hf, hk] at h <;>
          simp only [alookup] at h <;>
          simp [RecommendedProduct.mk.injEq, firstIntroReason, blendedScore, occScores,
            hc, hf, hk, List.map_map, Function.comp] at h ⊢ <;>
          try exact ⟨h.2.2.symm, h.2.1.symm⟩

/-- Witness for C2 at fixed inputs where product X appears in two signals
with different reasons: the content signal introduces X (score 2), the
collaborative signal adds 10; the blend keeps the content reason and score
12. -/
theorem claim_C2_witness :
    ((RecommendedProduct.mk "X" 12 "Similar to items you viewed").reason =
      firstIntroReason "X" [[⟨"X", 2, "sim"⟩]].flatten
        [⟨"X", 10, "Customers like you also bought"⟩] ∧
    (RecommendedProduct.mk "X" 12 "Similar to items you viewed").score =
      blendedScore "X" [[⟨"X", 2, "sim"⟩]].flatten
        [⟨"X", 10, "Customers like you also bought"⟩] []) ∧
    alookup (mergeSignals [] [[⟨"X", 2, "sim"⟩]]
        [⟨"X", 10, "Customers like you also bought"⟩] []) "X" =
      some ⟨"X", 12, "Similar to items you viewed"⟩ := by
  constructor
  · exact claim_C2 [] [[⟨"X", 2, "sim"⟩]] [⟨"X", 10, "Customers like you also bought"⟩] []
      "X" ⟨"X", 12, "Similar to items you viewed"⟩ (by with_unfolding_all decide)
  · with_unfolding_all decide

/-! ## Lemmas: personalize paths and event projections -/

theorem getUserProfile_categories (s : Store) (u : String) (prof : UserProfile)
    (h : getUserProfile s u = some prof) : prof.preferred_categories = [] := by
  unfold getUserProfile at h
  cases hq : s.profile u
  · rw [hq] at h
    simp at h
  · rw [hq] at h
    simp only [Option.some.injEq] at h
    rw [← h]

theorem personalize_cat_skip (s2 : Store) (u : String) (excluded : List String)
    (d : List (String × RecommendedProduct)) :
    (match getUserProfile s2 u with
     | some user_profile =>
       if user_profile.preferred_categories ≠ [] then
         (getCategoryRecommendations s2 (user_profile.preferred_categories.take 3) 5).foldl
           (catStep excluded) d
       else d
     | none => d) = d := by
  cases hp : getUserProfile s2 u
  · rfl
  · rename_i prof
    have hred : (match some prof with
        | some user_profile =>
          if user_profile.preferred_categories ≠ [] then
            (getCategoryRecommendations s2 (user_profile.preferred_categories.take 3) 5).foldl
              (catStep excluded) d
          else d
        | none => d) =
        (if prof.preferred_categories ≠ [] then
          (getCategoryRecommendations s2 (prof.preferred_categories.take 3) 5).foldl
            (catStep excluded) d
        else d) := rfl
    rw [hred, getUserProfile_categories s2 u prof hp]
    simp

theorem getUserInteractions_nil (s : Store) (u : String) :
    getUserInteractions s u = [] ↔ s.interactions u = [] := by
  unfold getUserInteractions
  rw [List.take_eq_nil_iff]
  simp

theorem contentStep_entries_excl (excluded : List String)
    (d : List (String × RecommendedProduct)) (a : RecommendedProduct)
    (hd : ∀ en ∈ d, en.2.product_id ∉ excluded) :
    ∀ en ∈ contentStep excluded d a, en.2.product_id ∉ excluded := by
  unfold contentStep
  by_cases hae : a.product_id ∈ excluded
  · rw [if_pos hae]
    exact hd
  · rw [if_neg hae]
    cases hl : alookup d a.product_id
    · simp only [hl]
      exact forall_mem_dset hd hae
    · simp only [hl]
      exact forall_mem_dmodify hd (fun k v hv => hv)

theorem cfStep_entries_excl (excluded : List String)
    (d : List (String × RecommendedProduct)) (a : RecommendedProduct)
    (hd : ∀ en ∈ d, en.2.product_id ∉ excluded) :
    ∀ en ∈ cfStep excluded d a, en.2.product_id ∉ excluded := by
  unfold cfStep
  by_cases hae : a.product_id ∈ excluded
  · rw [if_pos hae]
    exact hd
  · rw [if_neg hae]
    cases hl : alookup d a.product_id
    · simp only [hl]
      exact forall_mem_dset hd hae
    · simp only [hl]
      exact forall_mem_dmodify hd (fun k v hv => hv)

theorem contentStep_entries_good (excluded : List String)
    (d : List (String × RecommendedProduct)) (a : RecommendedProduct)
    (hd : ∀ en ∈ d, goodReason en.2) :
    ∀ en ∈ contentStep excluded d a, goodReason en.2 := by
  unfold contentStep
  by_cases hae : a.product_id ∈ excluded
  · rw [if_pos hae]
    exact hd
  · rw [if_neg hae]
    cases hl : alookup d a.product_id
    · simp only [hl]
      exact forall_mem_dset hd (by simp [goodReason])
    · simp only [hl]
      exact forall_mem_dmodify hd (fun k v hv => hv)

theorem cfStep_entries_good (excluded : List String)
    (d : List (String × RecommendedProduct)) (a : RecommendedProduct)
    (ha : goodReason a) (hd : ∀ en ∈ d, goodReason en.2) :
    ∀ en ∈ cfStep excluded d a, goodReason en.2 := by
  unfold cfStep
  by_cases hae : a.product_id ∈ excluded
  · rw [if_pos hae]
    exact hd
  · rw [if_neg hae]
    cases hl : alookup d a.product_id
    · simp only [hl]
      exact forall_mem_dset hd ha
    · simp only [hl]
      exact forall_mem_dmodify hd (fun k v hv => hv)

theorem simCoStage_entries_good (co : ZSet) :
    ∀ en ∈ simCoStage co, goodReason en.2 := by
  unfold simCoStage
  refine foldl_pres_mem _
    (fun d : List (String × RecommendedProduct) => ∀ en ∈ d, goodReason en.2) co ?_ [] (by simp)
  intro d e _ hd
  exact forall_mem_dset hd (by simp [goodReason])

theorem computeSimilar_good (s : Store) (product_id : String) (limit : Nat) :
    ∀ r ∈ computeSimilar s product_id limit, goodReason r := by
  intro r hr
  unfold computeSimilar at hr
  rcases List.mem_map.mp ((mem_pySortDesc _ r _).mp
    ((List.take_sublist _ _).subset hr)) with ⟨en, hen, rfl⟩
  rcases simCatStage_entries s product_id limit _ en hen with h | h
  · exact simCoStage_entries_good _ en h
  · rw [h.1]
    simp [goodReason]

theorem computeTrending_good (s : Store) (limit : Nat) :
    ∀ r ∈ computeTrending s limit, goodReason r := by
  intro r hr
  unfold computeTrending at hr
  rcases List.mem_map.mp hr with ⟨e, _, rfl⟩
  simp [goodReason]

theorem collaborativeFiltering_reasons (s : Store) (u : String) (limit : Nat) :
    ∀ r ∈ collaborativeFiltering s u limit, r.reason = "Customers like you also bought" := by
  intro r hr
  exact (collaborativeFiltering_mem hr).2.2

theorem getSimilarProducts_proj (s : Store) (product_id : String) (limit : Nat) :
    (getSimilarProducts s product_id limit).2.interactions = s.interactions ∧
    (getSimilarProducts s product_id limit).2.popularity = s.popularity ∧
    (getSimilarProducts s product_id limit).2.coOccurrence = s.coOccurrence ∧
    (getSimilarProducts s product_id limit).2.purchased = s.purchased ∧
    (getSimilarProducts s product_id limit).2.profile = s.profile ∧
    (getSimilarProducts s product_id limit).2.productMeta = s.productMeta ∧
    (getSimilarProducts s product_id limit).2.categoryProducts = s.categoryProducts ∧
    (getSimilarProducts s product_id limit).2.categoryPopular = s.categoryPopular ∧
    (getSimilarProducts s product_id limit).2.personalizedCache = s.personalizedCache ∧
    (getSimilarProducts s product_id limit).2.trendingCache = s.trendingCache := by
  unfold getSimilarProducts
  cases h : s.similarCache product_id <;> simp [h]

theorem getTrendingProducts_proj (s : Store) (limit : Nat) :
    (getTrendingProducts s limit).2.interactions = s.interactions ∧
    (getTrendingProducts s limit).2.popularity = s.popularity ∧
    (getTrendingProducts s limit).2.coOccurrence = s.coOccurrence ∧
    (getTrendingProducts s limit).2.purchased = s.purchased ∧
    (getTrendingProducts s limit).2.profile = s.profile ∧
    (getTrendingProducts s limit).2.productMeta = s.productMeta ∧
    (getTrendingProducts s limit).2.categoryProducts = s.categoryProducts ∧
    (getTrendingProducts s limit).2.categoryPopular = s.categoryPopular ∧
    (getTrendingProducts s limit).2.personalizedCache = s.personalizedCache ∧
    (getTrendingProducts s limit).2.similarCache = s.similarCache := by
  unfold getTrendingProducts
  cases h : s.trendingCache <;> simp [h]

theorem contentLoop_proj (excluded : List String) (recent : List String)
    (d : List (String × RecommendedProduct)) (s : Store) :
    (contentLoop excluded recent d s).2.interactions = s.interactions ∧
    (contentLoop excluded recent d s).2.popularity = s.popularity ∧
    (contentLoop excluded recent d s).2.coOccurrence = s.coOccurrence ∧
    (contentLoop excluded recent d s).2.purchased = s.purchased ∧
    (contentLoop excluded recent d s).2.profile = s.profile ∧
    (contentLoop excluded recent d s).2.productMeta = s.productMeta ∧
    (contentLoop excluded recent d s).2.categoryProducts = s.categoryProducts ∧
    (contentLoop excluded recent d s).2.categoryPopular = s.categoryPopular ∧
    (contentLoop excluded recent d s).2.personalizedCache = s.personalizedCache ∧
    (contentLoop excluded recent d s).2.trendingCache = s.trendingCache := by
  unfold contentLoop
  refine foldl_pres_mem _ (fun acc : List (String × RecommendedProduct) × Store =>
    acc.2.interactions = s.interactions ∧ acc.2.popularity = s.popularity ∧
    acc.2.coOccurrence = s.coOccurrence ∧ acc.2.purchased = s.purchased ∧
    acc.2.profile = s.profile ∧ acc.2.productMeta = s.productMeta ∧
    acc.2.categoryProducts = s.categoryProducts ∧
    acc.2.categoryPopular = s.categoryPopular ∧
    acc.2.personalizedCache = s.personalizedCache ∧
    acc.2.trendingCache = s.trendingCache) recent ?_ (d, s)
    ⟨rfl, rfl, rfl, rfl, rfl, rfl, rfl, rfl, rfl, rfl⟩
  intro acc pid _ hacc
  have hp := getSimilarProducts_proj acc.2 pid 5
  exact ⟨hp.1.trans hacc.1, hp.2.1.trans hacc.2.1, hp.2.2.1.trans hacc.2.2.1,
    hp.2.2.2.1.trans hacc.2.2.2.1, hp.2.2.2.2.1.trans hacc.2.2.2.2.1,
    hp.2.2.2.2.2.1.trans hacc.2.2.2.2.2.1, hp.2.2.2.2.2.2.1.trans hacc.2.2.2.2.2.2.1,
    hp.2.2.2.2.2.2.2.1.trans hacc.2.2.2.2.2.2.2.1,
    hp.2.2.2.2.2.2.2.2.1.trans hacc.2.2.2.2.2.2.2.2.1,
    hp.2.2.2.2.2.2.2.2.2.trans hacc.2.2.2.2.2.2.2.2.2⟩

/-! ## Lemmas: personalize dispatch, reachability invariants -/

theorem personalize_hit (s : Store) (u : String) (limit : Nat) (ex : Bool)
    (cached : List RecommendedProduct) (hcache : s.personalizedCache u = some cached) :
    getPersonalized s u limit ex = (cached.take limit, s) := by
  simp only [getPersonalized, hcache]

theorem personalize_cold (s : Store) (u : String) (limit : Nat) (ex : Bool)
    (hcache : s.personalizedCache u = none) (hemp : getUserInteractions s u = []) :
    getPersonalized s u limit ex = getTrendingProducts s limit := by
  simp only [getPersonalized, hcache]
  rw [if_pos hemp]

theorem personalize_fresh (s : Store) (u : String) (limit : Nat) (ex : Bool)
    (hcache : s.personalizedCache u = none) (hne : ¬ getUserInteractions s u = []) :
    getPersonalized s u limit ex = personalizeCompute s u limit ex := by
  simp only [getPersonalized, hcache]
  rw [if_neg hne]

theorem personalizeCompute_store (s : Store) (u : String) (limit : Nat) (ex : Bool) :
    (personalizeCompute s u limit ex).2 =
      { (contentLoop (if ex then getPurchasedProducts s u else [])
          (((getUserInteractions s u).take 10).map (fun i => i.product_id)) [] s).2 with
        personalizedCache :=
          upd (contentLoop (if ex then getPurchasedProducts s u else [])
            (((getUserInteractions s u).take 10).map (fun i => i.product_id)) [] s).2.personalizedCache
            u (some (personalizeCompute s u limit ex).1) } := rfl

theorem personalizeCompute_proj (s : Store) (u : String) (limit : Nat) (ex : Bool) :
    (personalizeCompute s u limit ex).2.interactions = s.interactions ∧
    (personalizeCompute s u limit ex).2.popularity = s.popularity ∧
    (personalizeCompute s u limit ex).2.coOccurrence = s.coOccurrence ∧
    (personalizeCompute s u limit ex).2.purchased = s.purchased ∧
    (personalizeCompute s u limit ex).2.profile = s.profile ∧
    (personalizeCompute s u limit ex).2.productMeta = s.productMeta ∧
    (personalizeCompute s u limit ex).2.categoryProducts = s.categoryProducts ∧
    (personalizeCompute s u limit ex).2.categoryPopular = s.categoryPopular ∧
    (personalizeCompute s u limit ex).2.trendingCache = s.trendingCache := by
  rw [personalizeCompute_store]
  have hp := contentLoop_proj (if ex then getPurchasedProducts s u else [])
    (((getUserInteractions s u).take 10).map (fun i => i.product_id)) [] s
  exact ⟨hp.1, hp.2.1, hp.2.2.1, hp.2.2.2.1, hp.2.2.2.2.1, hp.2.2.2.2.2.1,
    hp.2.2.2.2.2.2.1, hp.2.2.2.2.2.2.2.1, hp.2.2.2.2.2.2.2.2.2⟩

theorem personalizeCompute_cache (s : Store) (u : String) (limit : Nat) (ex : Bool)
    (v : String) :
    (personalizeCompute s u limit ex).2.personalizedCache v =
      if v = u then some (personalizeCompute s u limit ex).1
      else s.personalizedCache v := by
  rw [personalizeCompute_store]
  by_cases hv : v = u
  · simp only [hv, upd_self, if_pos rfl]
    simp
  · rw [if_neg hv]
    have hp := (contentLoop_proj (if ex then getPurchasedProducts s u else [])
      (((getUserInteractions s u).take 10).map (fun i => i.product_id)) [] s).2.2.2.2.2.2.2.2.1
    calc upd (contentLoop (if ex then getPurchasedProducts s u else [])
          (((getUserInteractions s u).take 10).map (fun i => i.product_id)) [] s).2.personalizedCache
          u (some (personalizeCompute s u limit ex).1) v =
        (contentLoop (if ex then getPurchasedProducts s u else [])
          (((getUserInteractions s u).take 10).map (fun i => i.product_id)) [] s).2.personalizedCache v :=
          upd_other _ _ _ hv
      _ = s.personalizedCache v := by rw [hp]

theorem trackStore_needsHistory (s : Store) (i : UserInteraction)
    (h : cacheNeedsHistory s) : cacheNeedsHistory (trackStore s i) := by
  intro v l hv
  rw [(trackStore_caches s i).1] at hv
  by_cases hvu : v = i.user_id
  · subst hvu
    rw [trackStore_interactions_self]
    simp
  · rw [trackStore_interactions_other s i hvu]
    exact h v l hv

theorem handleProductUpsert_proj (s : Store) (id c b pr n : String) :
    (handleProductUpsert s id c b pr n).interactions = s.interactions ∧
    (handleProductUpsert s id c b pr n).popularity = s.popularity ∧
    (handleProductUpsert s id c b pr n).coOccurrence = s.coOccurrence ∧
    (handleProductUpsert s id c b pr n).purchased = s.purchased ∧
    (handleProductUpsert s id c b pr n).profile = s.profile ∧
    (handleProductUpsert s id c b pr n).categoryPopular = s.categoryPopular ∧
    (handleProductUpsert s id c b pr n).personalizedCache = s.personalizedCache ∧
    (handleProductUpsert s id c b pr n).similarCache = s.similarCache ∧
    (handleProductUpsert s id c b pr n).trendingCache = s.trendingCache := by
  unfold handleProductUpsert
  by_cases h1 : id = ""
  · rw [if_pos h1]
    exact ⟨rfl, rfl, rfl, rfl, rfl, rfl, rfl, rfl, rfl⟩
  · rw [if_neg h1]
    by_cases h2 : c = "" <;> simp [h2]

theorem getPersonalized_needsHistory (s : Store) (u : String) (limit : Nat) (ex : Bool)
    (h : cacheNeedsHistory s) : cacheNeedsHistory (getPersonalized s u limit ex).2 := by
  cases hc : s.personalizedCache u with
  | some cached =>
    rw [personalize_hit s u limit ex cached hc]
    exact h
  | none =>
    by_cases hemp : getUserInteractions s u = []
    · rw [personalize_cold s u limit ex hc hemp]
      intro v l hv
      rw [(getTrendingProducts_proj s limit).2.2.2.2.2.2.2.2.1] at hv
      rw [(getTrendingProducts_proj s limit).1]
      exact h v l hv
    · rw [personalize_fresh s u limit ex hc hemp]
      intro v l hv
      rw [personalizeCompute_cache s u limit ex v] at hv
      rw [(personalizeCompute_proj s u limit ex).1]
      by_cases hvu : v = u
      · rw [hvu]
        exact fun hnil => hemp ((getUserInteractions_nil s u).mpr hnil)
      · rw [if_neg hvu] at hv
        exact h v l hv

theorem applyEvent_needsHistory (s : Store) (e : Event)
    (h : cacheNeedsHistory s) : cacheNeedsHistory (applyEvent s e) := by
  cases e with
  | track i => exact trackStore_needsHistory s i h
  | productUpsert id c b pr n =>
    intro v l hv
    simp only [applyEvent] at hv ⊢
    rw [(handleProductUpsert_proj s id c b pr n).2.2.2.2.2.2.1] at hv
    rw [(handleProductUpsert_proj s id c b pr n).1]
    exact h v l hv
  | personalize u limit ex => exact getPersonalized_needsHistory s u limit ex h
  | similar p limit =>
    intro v l hv
    simp only [applyEvent] at hv ⊢
    rw [(getSimilarProducts_proj s p limit).2.2.2.2.2.2.2.2.1] at hv
    rw [(getSimilarProducts_proj s p limit).1]
    exact h v l hv
  | trending limit =>
    intro v l hv
    simp only [applyEvent] at hv ⊢
    rw [(getTrendingProducts_proj s limit).2.2.2.2.2.2.2.2.1] at hv
    rw [(getTrendingProducts_proj s limit).1]
    exact h v l hv

theorem replay_needsHistory (events : List Event) : cacheNeedsHistory (replay events) := by
  unfold replay
  refine foldl_pres_mem _ cacheNeedsHistory events
    (fun s e _ hs => applyEvent_needsHistory s e hs) Store.empty ?_
  intro v l hv
  exact absurd hv (by simp [Store.empty])

/-! ## Lemmas: cache dispatch and reason goodness -/

theorem similar_hit (s : Store) (p : String) (limit : Nat)
    (cached : List RecommendedProduct) (hc : s.similarCache p = some cached) :
    getSimilarProducts s p limit = (cached.take limit, s) := by
  simp only [getSimilarProducts, hc]

theorem similar_miss (s : Store) (p : String) (limit : Nat)
    (hc : s.similarCache p = none) :
    getSimilarProducts s p limit = (computeSimilar s p limit,
      { s with similarCache := upd s.similarCache p (some (computeSimilar s p limit)) }) := by
  simp only [getSimilarProducts, hc]

theorem trending_hit (s : Store) (limit : Nat)
    (cached : List RecommendedProduct) (hc : s.trendingCache = some cached) :
    getTrendingProducts s limit = (cached.take limit, s) := by
  simp only [getTrendingProducts, hc]

theorem trending_miss (s : Store) (limit : Nat) (hc : s.trendingCache = none) :
    getTrendingProducts s limit = (computeTrending s limit,
      { s with trendingCache := some (computeTrending s limit) }) := by
  simp only [getTrendingProducts, hc]

theorem getSimilarProducts_good (s : Store) (p : String) (limit : Nat)
    (h : cachesGood s) :
    (∀ r ∈ (getSimilarProducts s p limit).1, goodReason r) ∧
    cachesGood (getSimilarProducts s p limit).2 := by
  cases hc : s.similarCache p with
  | some cached =>
    rw [similar_hit s p limit cached hc]
    exact ⟨fun r hr => h.2.1 p cached hc r ((List.take_sublist _ _).subset hr), h⟩
  | none =>
    rw [similar_miss s p limit hc]
    refine ⟨fun r hr => computeSimilar_good s p limit r hr, h.1, ?_, h.2.2⟩
    intro q l hq
    dsimp only at hq
    by_cases hqp : q = p
    · subst hqp
      rw [upd_self] at hq
      injection hq with hq2
      intro r hr
      exact computeSimilar_good s q limit r (hq2 ▸ hr)
    · rw [upd_other _ _ _ hqp] at hq
      exact h.2.1 q l hq

theorem getTrendingProducts_good (s : Store) (limit : Nat) (h : cachesGood s) :
    (∀ r ∈ (getTrendingProducts s limit).1, goodReason r) ∧
    cachesGood (getTrendingProducts s limit).2 := by
  cases hc : s.trendingCache with
  | some cached =>
    rw [trending_hit s limit cached hc]
    exact ⟨fun r hr => h.2.2 cached hc r ((List.take_sublist _ _).subset hr), h⟩
  | none =>
    rw [trending_miss s limit hc]
    refine ⟨fun r hr => computeTrending_good s limit r hr, h.1, h.2.1, ?_⟩
    intro l hl
    dsimp only at hl
    injection hl with hl2
    intro r hr
    exact computeTrending_good s limit r (hl2 ▸ hr)

theorem contentLoop_good (excluded : List String) (recent : List String)
    (d : List (String × RecommendedProduct)) (s : Store) (hs : cachesGood s) :
    cachesGood (contentLoop excluded recent d s).2 := by
  unfold contentLoop
  refine foldl_pres_mem _ (fun acc : List (String × RecommendedProduct) × Store =>
    cachesGood acc.2) recent ?_ (d, s) hs
  intro acc pid _ hacc
  exact (getSimilarProducts_good acc.2 pid 5 hacc).2

theorem contentLoop_entries_good (excluded : List String) (recent : List String)
    (d : List (String × RecommendedProduct)) (s : Store)
    (hd : ∀ en ∈ d, goodReason en.2) :
    ∀ en ∈ (contentLoop excluded recent d s).1, goodReason en.2 := by
  unfold contentLoop
  refine foldl_pres_mem _ (fun acc : List (String × RecommendedProduct) × Store =>
    ∀ en ∈ acc.1, goodReason en.2) recent ?_ (d, s) hd
  intro acc pid _ hacc
  exact foldl_pres_mem _ (fun d2 : List (String × RecommendedProduct) =>
    ∀ en ∈ d2, goodReason en.2) _
    (fun d2 a _ h2 => contentStep_entries_good excluded d2 a h2) _ hacc

theorem personalizeCompute_similarCache (s : Store) (u : String) (limit : Nat) (ex : Bool) :
    (personalizeCompute s u limit ex).2.similarCache =
      (contentLoop (if ex then getPurchasedProducts s u else [])
        (((getUserInteractions s u).take 10).map (fun i => i.product_id)) [] s).2.similarCache := by
  rw [personalizeCompute_store]

theorem personalizeCompute_good (s : Store) (u : String) (limit : Nat) (ex : Bool) :
    ∀ r ∈ (personalizeCompute s u limit ex).1, goodReason r := by
  intro r hr
  simp only [personalizeCompute] at hr
  rw [personalize_cat_skip] at hr
  rcases List.mem_map.mp ((mem_pySortDesc _ r _).mp
    ((List.take_sublist _ _).subset hr)) with ⟨en, hen, rfl⟩
  refine foldl_pres_mem _ (fun d2 : List (String × RecommendedProduct) =>
      ∀ en2 ∈ d2, goodReason en2.2) _ ?_ _
    (contentLoop_entries_good _ _ [] s (by simp)) en hen
  intro d2 a ha hd2
  refine cfStep_entries_good _ d2 a ?_ hd2
  rw [goodReason, collaborativeFiltering_reasons _ _ _ a ha]
  simp

theorem getPersonalized_good (s : Store) (u : String) (limit : Nat) (ex : Bool)
    (h : cachesGood s) :
    (∀ r ∈ (getPersonalized s u limit ex).1, goodReason r) ∧
    cachesGood (getPersonalized s u limit ex).2 := by
  cases hc : s.personalizedCache u with
  | some cached =>
    rw [personalize_hit s u limit ex cached hc]
    exact ⟨fun r hr => h.1 u cached hc r ((List.take_sublist _ _).subset hr), h⟩
  | none =>
    by_cases hemp : getUserInteractions s u = []
    · rw [personalize_cold s u limit ex hc hemp]
      exact getTrendingProducts_good s limit h
    · rw [personalize_fresh s u limit ex hc hemp]
      have hcl : cachesGood (contentLoop (if ex then getPurchasedProducts s u else [])
          (((getUserInteractions s u).take 10).map (fun i => i.product_id)) [] s).2 :=
        contentLoop_good _ _ [] s h
      refine ⟨personalizeCompute_good s u limit ex, ?_, ?_, ?_⟩
      · intro v l hv
        rw [personalizeCompute_cache s u limit ex v] at hv
        by_cases hvu : v = u
        · rw [if_pos hvu] at hv
          injection hv with hv2
          intro r hr
          exact personalizeCompute_good s u limit ex r (hv2 ▸ hr)
        · rw [if_neg hvu] at hv
          exact h.1 v l hv
      · intro q l hq
        rw [personalizeCompute_similarCache] at hq
        exact hcl.2.1 q l hq
      · intro l hl
        rw [(personalizeCompute_proj s u limit ex).2.2.2.2.2.2.2.2] at hl
        exact h.2.2 l hl

theorem applyEvent_good (s : Store) (e : Event) (h : cachesGood s) :
    cachesGood (applyEvent s e) := by
  cases e with
  | track i =>
    refine ⟨?_, ?_, ?_⟩
    · intro v l hv
      rw [show (applyEvent s (Event.track i)).personalizedCache = s.personalizedCache from
        (trackStore_caches s i).1] at hv
      exact h.1 v l hv
    · intro q l hq
      rw [show (applyEvent s (Event.track i)).similarCache = s.similarCache from
        (trackStore_caches s i).2.1] at hq
      exact h.2.1 q l hq
    · intro l hl
      rw [show (applyEvent s (Event.track i)).trendingCache = s.trendingCache from
        (trackStore_caches s i).2.2.1] at hl
      exact h.2.2 l hl
  | productUpsert id c b pr n =>
    refine ⟨?_, ?_, ?_⟩
    · intro v l hv
      rw [show (applyEvent s (Event.productUpsert id c b pr n)).personalizedCache =
        s.personalizedCache from (handleProductUpsert_proj s id c b pr n).2.2.2.2.2.2.1] at hv
      exact h.1 v l hv
    · intro q l hq
      rw [show (applyEvent s (Event.productUpsert id c b pr n)).similarCache =
        s.similarCache from (handleProductUpsert_proj s id c b pr n).2.2.2.2.2.2.2.1] at hq
      exact h.2.1 q l hq
    · intro l hl
      rw [show (applyEvent s (Event.productUpsert id c b pr n)).trendingCache =
        s.trendingCache from (handleProductUpsert_proj s id c b pr n).2.2.2.2.2.2.2.2] at hl
      exact h.2.2 l hl
  | personalize u limit ex => exact (getPersonalized_good s u limit ex h).2
  | similar p limit => exact (getSimilarProducts_good s p limit h).2
  | trending limit => exact (getTrendingProducts_good s limit h).2

theorem replay_good (events : List Event) : cachesGood (replay events) := by
  unfold replay
  refine foldl_pres_mem _ cachesGood events (fun s e _ hs => applyEvent_good s e hs)
    Store.empty ?_
  refine ⟨?_, ?_, ?_⟩
  · intro v l hv
    exact absurd hv (by simp [Store.empty])
  · intro q l hq
    exact absurd hq (by simp [Store.empty])
  · intro l hl
    exact absurd hl (by simp [Store.empty])

theorem applyEvent_categoryPopular (s : Store) (e : Event) :
    (applyEvent s e).categoryPopular = s.categoryPopular := by
  cases e with
  | track i => exact (trackStore_caches s i).2.2.2.2.2
  | productUpsert id c b pr n => exact (handleProductUpsert_proj s id c b pr n).2.2.2.2.2.1
  | personalize u limit ex =>
    show (getPersonalized s u limit ex).2.categoryPopular = s.categoryPopular
    cases hc : s.personalizedCache u with
    | some cached => rw [personalize_hit s u limit ex cached hc]
    | none =>
      by_cases hemp : getUserInteractions s u = []
      · rw [personalize_cold s u limit ex hc hemp]
        exact (getTrendingProducts_proj s limit).2.2.2.2.2.2.2.1
      · rw [personalize_fresh s u limit ex hc hemp]
        exact (personalizeCompute_proj s u limit ex).2.2.2.2.2.2.2.1
  | similar p limit => exact (getSimilarProducts_proj s p limit).2.2.2.2.2.2.2.1
  | trending limit => exact (getTrendingProducts_proj s limit).2.2.2.2.2.2.2.1

/-! ## Claims C1, C3, C6 -/

/-- C6 (confirmed): on every reachable store, a user with an empty
interaction log receives from Personalize exactly the Trending output for
the same store — the cold-start path delegates wholesale to the
trending/popularity path (lines 76-81).  Reachability supplies the cache
invariant that a personalized cache entry exists only for users with
history, so the cache-first lookup cannot interfere. -/
theorem claim_C6 (events : List Event) (u : String) (limit : Nat) (ex : Bool)
    (h : getUserInteractions (replay events) u = []) :
    (getPersonalized (replay events) u limit ex).1 =
      (getTrendingProducts (replay events) limit).1 := by
  have hcache : (replay events).personalizedCache u = none := by
    cases hc : (replay events).personalizedCache u with
    | none => rfl
    | some l =>
      exact absurd ((getUserInteractions_nil _ _).mp h) (replay_needsHistory events u l hc)
  rw [personalize_cold (replay events) u limit ex hcache h]

/-- Witness for C6: after one view event by V, the fresh user U gets the
trending list [A] from Personalize. -/
theorem claim_C6_witness :
    (getPersonalized (replay [Event.track ⟨"V", "A", InteractionType.view, ""⟩])
        "U" 10 true).1 =
      (getTrendingProducts (replay [Event.track ⟨"V", "A", InteractionType.view, ""⟩]) 10).1 ∧
    (getTrendingProducts (replay [Event.track ⟨"V", "A", InteractionType.view, ""⟩]) 10).1 =
      [⟨"A", 1, "Trending now"⟩] :=
  ⟨claim_C6 [Event.track ⟨"V", "A", InteractionType.view, ""⟩] "U" 10 true
     (by with_unfolding_all decide),
   by with_unfolding_all decide⟩

theorem contentLoop_entries_excl (excluded : List String) (recent : List String)
    (d : List (String × RecommendedProduct)) (s : Store)
    (hd : ∀ en ∈ d, en.2.product_id ∉ excluded) :
    ∀ en ∈ (contentLoop excluded recent d s).1, en.2.product_id ∉ excluded := by
  unfold contentLoop
  refine foldl_pres_mem _ (fun acc : List (String × RecommendedProduct) × Store =>
    ∀ en ∈ acc.1, en.2.product_id ∉ excluded) recent ?_ (d, s) hd
  intro acc pid _ hacc
  exact foldl_pres_mem _ (fun d2 : List (String × RecommendedProduct) =>
    ∀ en ∈ d2, en.2.product_id ∉ excluded) _
    (fun d2 a _ h2 => contentStep_entries_excl excluded d2 a h2) _ hacc

/-- C1 counterexample: the guarantee fails on the cache path.  After replay
of c1Events — where Personalize(U, exclude_purchased=false) cached a list
containing A and U then purchased A — Personalize(U, exclude_purchased=true)
serves the stale cache entry (keyed by user_id only, lines 69-74) and
returns A even though A is in U's purchased set. -/
theorem claim_C1_counterexample :
    "A" ∈ ((getPersonalized (replay c1Events) "U" 10 true).1.map
        (fun r => r.product_id)) ∧
    "A" ∈ getPurchasedProducts (replay c1Events) "U" := by
  with_unfolding_all decide

/-- C1 (corrected): the purchase-exclusion guarantee holds only on the
cache-miss compute path.  If no personalized cache entry exists for the
user and the user has history, Personalize with exclude_purchased=true
returns no product from the user's purchased set: the exclusion set is
checked by every merge step (lines 95-125) and the final list is drawn
from the merged dict. -/
theorem claim_C1 (s : Store) (u : String) (limit : Nat)
    (hcache : s.personalizedCache u = none) (hne : ¬ getUserInteractions s u = []) :
    ∀ r ∈ (getPersonalized s u limit true).1, r.product_id ∉ getPurchasedProducts s u := by
  rw [personalize_fresh s u limit true hcache hne]
  intro r hr
  simp only [personalizeCompute] at hr
  rw [personalize_cat_skip] at hr
  rcases List.mem_map.mp ((mem_pySortDesc _ r _).mp
    ((List.take_sublist _ _).subset hr)) with ⟨en, hen, rfl⟩
  refine foldl_pres_mem _ (fun d2 : List (String × RecommendedProduct) =>
      ∀ en2 ∈ d2, en2.2.product_id ∉ getPurchasedProducts s u) _
    (fun d2 a _ h2 => cfStep_entries_excl _ d2 a h2) _
    (contentLoop_entries_excl _ _ [] s (by simp)) en hen

/-- Witness for C1: on the reachable store replay c1WitnessEvents the
cache is empty for U and U has history, so the corrected guarantee
applies; concretely U's purchased product C is absent from the output. -/
theorem claim_C1_witness :
    ((replay c1WitnessEvents).personalizedCache "U" = none ∧
      ¬ getUserInteractions (replay c1WitnessEvents) "U" = []) ∧
    (∀ r ∈ (getPersonalized (replay c1WitnessEvents) "U" 10 true).1,
      r.product_id ∉ getPurchasedProducts (replay c1WitnessEvents) "U") ∧
    getPurchasedProducts (replay c1WitnessEvents) "U" = ["C"] := by
  refine ⟨⟨by with_unfolding_all decide, by with_unfolding_all decide⟩,
    claim_C1 (replay c1WitnessEvents) "U" 10 (by with_unfolding_all decide)
      (by with_unfolding_all decide), by with_unfolding_all decide⟩

/-- C3 (confirmed): the category-affinity signal is dead code.
(1) _get_user_profile (lines 354-366) always builds the UserProfile without
preferred_categories, so the field is its default []; (2) the ranking key
category:{id}:popular read by _get_category_recommendations is never
written by any event the system can process, so on every reachable store
it is empty; (3) consequently no Personalize output on a reachable store
ever carries the reason "Popular in your favorite categories". -/
theorem claim_C3 :
    (∀ (s : Store) (u : String) (prof : UserProfile),
      getUserProfile s u = some prof → prof.preferred_categories = []) ∧
    (∀ (events : List Event) (category_id : String),
      (replay events).categoryPopular category_id = []) ∧
    (∀ (events : List Event) (u : String) (limit : Nat) (ex : Bool),
      ∀ r ∈ (getPersonalized (replay events) u limit ex).1,
        r.reason ≠ "Popular in your favorite categories") := by
  refine ⟨getUserProfile_categories, ?_, ?_⟩
  · intro events category_id
    have hfun : (replay events).categoryPopular = Store.empty.categoryPopular := by
      unfold replay
      refine foldl_pres_mem _ (fun t : Store => t.categoryPopular = Store.empty.categoryPopular)
        events ?_ Store.empty rfl
      intro t e _ ht
      rw [applyEvent_categoryPopular t e, ht]
    rw [hfun]
    rfl
  · intro events u limit ex r hr
    exact (getPersonalized_good (replay events) u limit ex (replay_good events)).1 r hr

/-- Witness for C3: the concrete profile stored for U after a single
tracked view has empty preferred_categories; a concrete category key is
empty after replay of c1WitnessEvents; a concrete output item of
Personalize on that store does not carry the category reason. -/
theorem claim_C3_witness :
    (⟨"U", [], [], 0, 10000, 1, none⟩ : UserProfile).preferred_categories = [] ∧
    (replay c1WitnessEvents).categoryPopular "electronics" = [] ∧
    (⟨"A", 4, "Similar to items you viewed"⟩ : RecommendedProduct).reason ≠
      "Popular in your favorite categories" := by
  refine ⟨claim_C3.1 (trackStore Store.empty ⟨"U", "A", InteractionType.view, ""⟩) "U"
      ⟨"U", [], [], 0, 10000, 1, none⟩ (by with_unfolding_all rfl),
    claim_C3.2.1 c1WitnessEvents "electronics",
    claim_C3.2.2 c1WitnessEvents "U" 10 true ⟨"A", 4, "Similar to items you viewed"⟩
      (by with_unfolding_all decide)⟩

end RecSvc

